import Mathlib

/-
Verification of the geode TriangleTopology corner-mesh data structure
(src/conversions/TriangleTopology.h) against its specification.

The shallow embedding below translates the C++ header faithfully:
machine ints become Lean Int, the Field/Array containers become Lists with
explicit range checks, and the inline member functions of TriangleTopology
are translated clause by clause.  Operations whose bodies live in the
missing TriangleTopology.cpp are modelled from the specification text and
carry a doc comment starting with "Modelled from the spec:".
-/

namespace Geode

/-- Modelled from the spec: geode/mesh/ids.h is not in src/.  The spec says
ids are opaque integer handles with a reserved "invalid" sentinel (stored by
isolated vertices) and a distinct reserved "erased" tombstone sentinel.
geode uses INT_MIN and INT_MIN+1. -/
def invalid_id : Int := -(2 ^ 31)

/-- Modelled from the spec: the reserved tombstone value marking an element
erased while its slot remains allocated, distinct from invalid_id. -/
def erased_id : Int := -(2 ^ 31) + 1

/-- Typed vertex handle (an int in C++). -/
structure VertexId where
  id : Int
deriving DecidableEq, Repr

/-- Typed face handle (an int in C++). -/
structure FaceId where
  id : Int
deriving DecidableEq, Repr

/-- Typed halfedge handle: non-negative means interior halfedge 3*f+i,
negative means boundary halfedge -1-b. -/
structure HalfedgeId where
  id : Int
deriving DecidableEq, Repr

/-- Modelled from the spec: handle validity test of ids.h (id differs from
the invalid sentinel); a boundary vertex stores a negative boundary
halfedge which must count as valid, so validity is not a sign test here. -/
def HalfedgeId.isValid (e : HalfedgeId) : Bool := e.id ≠ invalid_id

/-- Modelled from the spec: handle validity test of ids.h for faces. -/
def FaceId.isValid (f : FaceId) : Bool := f.id ≠ invalid_id

/-- Vector of three components, as geode Vector<T,3> with members x,y,z. -/
structure Vec3 (α : Type) where
  x : α
  y : α
  z : α
deriving DecidableEq, Repr

/-- Component access vertices[i] for i in [0,3), as in the C++ source. -/
def Vec3.get {α : Type} (v : Vec3 α) (i : Int) : α :=
  if i = 0 then v.x else if i = 1 then v.y else v.z

/-- Per-face record: three vertices (vertices.x is the erasure tombstone
slot) and three neighbor halfedges, TriangleTopology::FaceInfo. -/
structure FaceInfo where
  vertices : Vec3 VertexId
  neighbors : Vec3 HalfedgeId
deriving DecidableEq, Repr

/-- Per-boundary-halfedge record, TriangleTopology::BoundaryInfo: prev and
next boundary links (next doubles as the erased free-list link), the
interior reverse, and the source vertex (tombstone slot). -/
structure BoundaryInfo where
  prev : HalfedgeId
  next : HalfedgeId
  reverse : HalfedgeId
  src : VertexId
deriving DecidableEq, Repr

/-- Read a list at a C++ int index: in-range yields the element, anything
else yields the supplied junk value (the C++ code only reads in range). -/
def iget {α : Type} (l : List α) (i : Int) (d : α) : α :=
  if 0 ≤ i then l.getD i.toNat d else d

/-- Write a list at a C++ int index; out of range writes are dropped. -/
def iset {α : Type} (l : List α) (i : Int) (a : α) : List α :=
  if 0 ≤ i then l.set i.toNat a else l

/-- Array<T>::valid(i), i.e. 0 <= i < size. -/
def inRange {α : Type} (l : List α) (i : Int) : Bool :=
  0 ≤ i ∧ i < (l.length : Int)

theorem iset_length {α : Type} (l : List α) (i : Int) (a : α) :
    (iset l i a).length = l.length := by
  unfold iset
  split <;> simp

theorem iget_iset_self {α : Type} (l : List α) (i : Int) (a d : α)
    (h0 : 0 ≤ i) (hlt : i < (l.length : Int)) : iget (iset l i a) i d = a := by
  unfold iget iset
  rw [if_pos h0, if_pos h0]
  have hn : i.toNat < l.length := by omega
  rw [List.getD_eq_getElem _ _ (by rw [List.length_set]; exact hn)]
  exact List.getElem_set_self (by rw [List.length_set]; exact hn)

theorem iget_iset_ne {α : Type} (l : List α) (i j : Int) (a d : α)
    (hij : j ≠ i) : iget (iset l i a) j d = iget l j d := by
  unfold iget iset
  by_cases h0 : 0 ≤ i
  · rw [if_pos h0]
    by_cases hj : 0 ≤ j
    · rw [if_pos hj, if_pos hj]
      by_cases hjl : j.toNat < l.length
      · rw [List.getD_eq_getElem _ _ (by rw [List.length_set]; exact hjl),
          List.getD_eq_getElem _ _ hjl]
        exact List.getElem_set_ne (by omega) (by rw [List.length_set]; exact hjl)
      · rw [List.getD_eq_default _ _ (by rw [List.length_set]; omega),
          List.getD_eq_default _ _ (by omega)]
    · rw [if_neg hj, if_neg hj]
  · rw [if_neg h0]

/-- Junk face record used for out-of-range reads. -/
def junkFace : FaceInfo :=
  ⟨⟨⟨invalid_id⟩, ⟨invalid_id⟩, ⟨invalid_id⟩⟩, ⟨⟨invalid_id⟩, ⟨invalid_id⟩, ⟨invalid_id⟩⟩⟩

/-- Junk boundary record used for out-of-range reads. -/
def junkBoundary : BoundaryInfo :=
  ⟨⟨invalid_id⟩, ⟨invalid_id⟩, ⟨invalid_id⟩, ⟨invalid_id⟩⟩

/-- State of a TriangleTopology: the three live counts, the face field,
the vertex-to-outgoing-halfedge field, the boundary records, and the head
of the free list of erased boundary slots. -/
structure TriangleTopology where
  n_vertices_ : Int
  n_faces_ : Int
  n_boundary_edges_ : Int
  faces_ : List FaceInfo
  vertex_to_edge_ : List HalfedgeId
  boundaries_ : List BoundaryInfo
  erased_boundaries_ : HalfedgeId
deriving DecidableEq, Repr

namespace TriangleTopology

/-- Read faces_.flat[i]. -/
def fRead (m : TriangleTopology) (i : Int) : FaceInfo := iget m.faces_ i junkFace

/-- Read boundaries_[i]. -/
def bRead (m : TriangleTopology) (i : Int) : BoundaryInfo := iget m.boundaries_ i junkBoundary

/-- Read vertex_to_edge_[v]. -/
def vRead (m : TriangleTopology) (i : Int) : HalfedgeId := iget m.vertex_to_edge_ i ⟨invalid_id⟩

/-- TriangleTopology::n_vertices(). -/
def n_vertices (m : TriangleTopology) : Int := m.n_vertices_

/-- TriangleTopology::n_faces(). -/
def n_faces (m : TriangleTopology) : Int := m.n_faces_

/-- TriangleTopology::n_boundary_edges(). -/
def n_boundary_edges (m : TriangleTopology) : Int := m.n_boundary_edges_

/-- TriangleTopology::n_edges(): (3*n_faces_+n_boundary_edges_)>>1; the
C++ arithmetic shift floors, which for the positive divisor 2 is Lean Int
division. -/
def n_edges (m : TriangleTopology) : Int := (3 * m.n_faces_ + m.n_boundary_edges_) / 2

/-- TriangleTopology::chi(): Euler characteristic V - E + F. -/
def chi (m : TriangleTopology) : Int := m.n_vertices - m.n_edges + m.n_faces

/-- TriangleTopology::erased(VertexId): vertex_to_edge_[v].id==erased_id. -/
def erased_v (m : TriangleTopology) (v : VertexId) : Bool :=
  (m.vRead v.id).id = erased_id

/-- TriangleTopology::erased(FaceId): faces_[f].vertices.x.id==erased_id. -/
def erased_f (m : TriangleTopology) (f : FaceId) : Bool :=
  (m.fRead f.id).vertices.x.id = erased_id

/-- TriangleTopology::erased(HalfedgeId): interior halfedges read the
tombstone slot of their face, boundary halfedges the src of their slot. -/
def erased_e (m : TriangleTopology) (e : HalfedgeId) : Bool :=
  if 0 ≤ e.id then (m.fRead (e.id / 3)).vertices.x.id = erased_id
  else (m.bRead (-1 - e.id)).src.id = erased_id

/-- TriangleTopology::valid(VertexId): in range and not erased. -/
def valid_v (m : TriangleTopology) (v : VertexId) : Bool :=
  inRange m.vertex_to_edge_ v.id && !m.erased_v v

/-- TriangleTopology::valid(FaceId): in range and not erased. -/
def valid_f (m : TriangleTopology) (f : FaceId) : Bool :=
  inRange m.faces_ f.id && !m.erased_f f

/-- TriangleTopology::valid(HalfedgeId): interior halfedges defer to their
face, boundary halfedges check their slot range and tombstone. -/
def valid_e (m : TriangleTopology) (e : HalfedgeId) : Bool :=
  if 0 ≤ e.id then m.valid_f ⟨e.id / 3⟩
  else inRange m.boundaries_ (-1 - e.id) && (m.bRead (-1 - e.id)).src.id ≠ erased_id

/-- TriangleTopology::halfedge(VertexId): the stored outgoing halfedge. -/
def halfedge_v (m : TriangleTopology) (v : VertexId) : HalfedgeId := m.vRead v.id

/-- TriangleTopology::vertex(FaceId,int). -/
def vertex (m : TriangleTopology) (f : FaceId) (i : Int) : VertexId :=
  (m.fRead f.id).vertices.get i

/-- TriangleTopology::halfedge(FaceId,int): HalfedgeId(3*f.id+i). -/
def halfedge_f (m : TriangleTopology) (f : FaceId) (i : Int) : HalfedgeId :=
  ⟨3 * f.id + i⟩

/-- TriangleTopology::prev(HalfedgeId). -/
def prev (m : TriangleTopology) (e : HalfedgeId) : HalfedgeId :=
  if 0 ≤ e.id then ⟨e.id + (if e.id % 3 = 0 then 2 else -1)⟩
  else (m.bRead (-1 - e.id)).prev

/-- TriangleTopology::next(HalfedgeId). -/
def next (m : TriangleTopology) (e : HalfedgeId) : HalfedgeId :=
  if 0 ≤ e.id then ⟨e.id + (if e.id % 3 = 2 then -2 else 1)⟩
  else (m.bRead (-1 - e.id)).next

/-- TriangleTopology::reverse(HalfedgeId). -/
def reverse (m : TriangleTopology) (e : HalfedgeId) : HalfedgeId :=
  if 0 ≤ e.id then (m.fRead (e.id / 3)).neighbors.get (e.id - 3 * (e.id / 3))
  else (m.bRead (-1 - e.id)).reverse

/-- TriangleTopology::src(HalfedgeId). -/
def src (m : TriangleTopology) (e : HalfedgeId) : VertexId :=
  if 0 ≤ e.id then (m.fRead (e.id / 3)).vertices.get (e.id - 3 * (e.id / 3))
  else (m.bRead (-1 - e.id)).src

/-- TriangleTopology::dst(HalfedgeId). -/
def dst (m : TriangleTopology) (e : HalfedgeId) : VertexId :=
  if 0 ≤ e.id then
    (m.fRead (e.id / 3)).vertices.get
      (if e.id - 3 * (e.id / 3) = 2 then 0 else e.id - 3 * (e.id / 3) + 1)
  else (m.bRead (-1 - (m.bRead (-1 - e.id)).next.id)).src

/-- TriangleTopology::face(HalfedgeId): FaceId(e/3) for interior, the
default-constructed (invalid) FaceId for boundary halfedges. -/
def face (m : TriangleTopology) (e : HalfedgeId) : FaceId :=
  if 0 ≤ e.id then ⟨e.id / 3⟩ else ⟨invalid_id⟩

/-- TriangleTopology::left(HalfedgeId): reverse(prev(e)). -/
def left (m : TriangleTopology) (e : HalfedgeId) : HalfedgeId :=
  m.reverse (m.prev e)

/-- TriangleTopology::right(HalfedgeId): next(reverse(e)). -/
def right (m : TriangleTopology) (e : HalfedgeId) : HalfedgeId :=
  m.next (m.reverse e)

/-- TriangleTopology::is_boundary(HalfedgeId): the sign test e.id<0. -/
def is_boundary_e (m : TriangleTopology) (e : HalfedgeId) : Bool := e.id < 0

/-- TriangleTopology::is_boundary(VertexId): halfedge(v).id<0. -/
def is_boundary_v (m : TriangleTopology) (v : VertexId) : Bool :=
  (m.halfedge_v v).id < 0

/-- TriangleTopology::isolated(VertexId): the stored handle is invalid. -/
def isolated (m : TriangleTopology) (v : VertexId) : Bool :=
  !(m.halfedge_v v).isValid

/-- TriangleTopology::unsafe_set_erased(HalfedgeId b) for a boundary
halfedge: tombstone the slot's src, splice the slot onto the front of the
erased free list through its next field, and decrement the live boundary
count (source lines 566-572). -/
def unsafe_set_erased_b (m : TriangleTopology) (b : HalfedgeId) : TriangleTopology :=
  let k : Int := -1 - b.id
  let bi := m.bRead k
  { m with
    boundaries_ := iset m.boundaries_ k { bi with src := ⟨erased_id⟩, next := m.erased_boundaries_ }
    erased_boundaries_ := b
    n_boundary_edges_ := m.n_boundary_edges_ - 1 }

end TriangleTopology

open TriangleTopology

/-- Concrete mesh: one triangle (0,1,2) with its three boundary halfedges,
in the representation the header documents (interior halfedge 3f+i runs
from vertices[i]; boundary -1-b stores prev/next/reverse/src). -/
def tri1 : TriangleTopology where
  n_vertices_ := 3
  n_faces_ := 1
  n_boundary_edges_ := 3
  faces_ := [⟨⟨⟨0⟩, ⟨1⟩, ⟨2⟩⟩, ⟨⟨-1⟩, ⟨-2⟩, ⟨-3⟩⟩⟩]
  vertex_to_edge_ := [⟨-3⟩, ⟨-1⟩, ⟨-2⟩]
  boundaries_ :=
    [⟨⟨-2⟩, ⟨-3⟩, ⟨0⟩, ⟨1⟩⟩,
     ⟨⟨-3⟩, ⟨-1⟩, ⟨1⟩, ⟨2⟩⟩,
     ⟨⟨-1⟩, ⟨-2⟩, ⟨2⟩, ⟨0⟩⟩]
  erased_boundaries_ := ⟨invalid_id⟩

/-- Concrete mesh: a tetrahedron (closed, manifold), with faces
(0,1,2), (1,0,3), (2,1,3), (0,2,3) and the matching neighbor wiring. -/
def tetra : TriangleTopology where
  n_vertices_ := 4
  n_faces_ := 4
  n_boundary_edges_ := 0
  faces_ :=
    [⟨⟨⟨0⟩, ⟨1⟩, ⟨2⟩⟩, ⟨⟨3⟩, ⟨6⟩, ⟨9⟩⟩⟩,
     ⟨⟨⟨1⟩, ⟨0⟩, ⟨3⟩⟩, ⟨⟨0⟩, ⟨11⟩, ⟨7⟩⟩⟩,
     ⟨⟨⟨2⟩, ⟨1⟩, ⟨3⟩⟩, ⟨⟨1⟩, ⟨5⟩, ⟨10⟩⟩⟩,
     ⟨⟨⟨0⟩, ⟨2⟩, ⟨3⟩⟩, ⟨⟨2⟩, ⟨8⟩, ⟨4⟩⟩⟩]
  vertex_to_edge_ := [⟨0⟩, ⟨1⟩, ⟨2⟩, ⟨5⟩]
  boundaries_ := []
  erased_boundaries_ := ⟨invalid_id⟩

/-- C2: interior halfedges of a valid face f are encoded as 3*f+i for a
corner i in [0,3), boundary halfedges are exactly the negative values
-1-b, is_boundary is the sign test, and face() divides by three for
non-negative ids and is invalid for negative ones. -/
theorem halfedge_encoding_boundary_sign (m : TriangleTopology) (f : FaceId) (i : Int)
    (e : HalfedgeId) (hf : m.valid_f f = true) (h0 : 0 ≤ i) (h3 : i < 3) :
    (m.halfedge_f f i).id = 3 * f.id + i ∧
    m.face (m.halfedge_f f i) = f ∧
    m.is_boundary_e (m.halfedge_f f i) = false ∧
    (m.is_boundary_e e = true ↔ e.id < 0) ∧
    (e.id < 0 → m.face e = ⟨invalid_id⟩ ∧ e.id = -1 - (-1 - e.id) ∧ 0 ≤ -1 - e.id) ∧
    (0 ≤ e.id → m.face e = ⟨e.id / 3⟩) := by
  have hf0 : 0 ≤ f.id := by
    simp only [TriangleTopology.valid_f, inRange, Bool.and_eq_true, decide_eq_true_eq] at hf
    exact_mod_cast hf.1.1
  refine ⟨rfl, ?_, ?_, ?_, ?_, ?_⟩
  · simp only [TriangleTopology.face, TriangleTopology.halfedge_f]
    have : 0 ≤ 3 * f.id + i := by omega
    simp only [this, if_pos]
    congr 1
    omega
  · simp only [TriangleTopology.is_boundary_e, TriangleTopology.halfedge_f,
      decide_eq_false_iff_not, not_lt]
    omega
  · simp [TriangleTopology.is_boundary_e]
  · intro he
    refine ⟨?_, by omega, by omega⟩
    simp only [TriangleTopology.face]
    rw [if_neg (by omega)]
  · intro he
    simp only [TriangleTopology.face, if_pos he]

/-- Witness for the C2 theorem at the tetrahedron, face 0, corner 1. -/
theorem halfedge_encoding_boundary_sign_witness :
    (tetra.halfedge_f ⟨0⟩ 1).id = 3 * (0 : Int) + 1 ∧ tetra.face (tetra.halfedge_f ⟨0⟩ 1) = ⟨0⟩ :=
  have h := halfedge_encoding_boundary_sign tetra ⟨0⟩ 1 ⟨-1⟩ (by decide) (by decide) (by decide)
  ⟨h.1, h.2.1⟩

/-- C10: validity of each id kind is the conjunction of a range check and
a single-slot tombstone test; erased implies invalid; out-of-range ids are
invalid without consulting any tombstone slot; the tombstone test for each
kind reads exactly the documented sentinel slot. -/
theorem valid_erased_characterisation (m : TriangleTopology) (v : VertexId) (f : FaceId)
    (e : HalfedgeId) :
    (m.valid_v v = true ↔
      0 ≤ v.id ∧ v.id < (m.vertex_to_edge_.length : Int) ∧ (m.vRead v.id).id ≠ erased_id) ∧
    (m.valid_f f = true ↔
      0 ≤ f.id ∧ f.id < (m.faces_.length : Int) ∧ (m.fRead f.id).vertices.x.id ≠ erased_id) ∧
    (0 ≤ e.id →
      (m.valid_e e = true ↔
        e.id < 3 * (m.faces_.length : Int) ∧ (m.fRead (e.id / 3)).vertices.x.id ≠ erased_id)) ∧
    (e.id < 0 →
      (m.valid_e e = true ↔
        -1 - e.id < (m.boundaries_.length : Int) ∧ (m.bRead (-1 - e.id)).src.id ≠ erased_id)) ∧
    (m.erased_v v = true → m.valid_v v = false) ∧
    (m.erased_f f = true → m.valid_f f = false) ∧
    (m.erased_e e = true → m.valid_e e = false) ∧
    (¬ (0 ≤ v.id ∧ v.id < (m.vertex_to_edge_.length : Int)) → m.valid_v v = false) ∧
    (¬ (0 ≤ f.id ∧ f.id < (m.faces_.length : Int)) → m.valid_f f = false) ∧
    (m.erased_v v = true ↔ (m.vRead v.id).id = erased_id) ∧
    (m.erased_f f = true ↔ (m.fRead f.id).vertices.x.id = erased_id) ∧
    (0 ≤ e.id → (m.erased_e e = true ↔ (m.fRead (e.id / 3)).vertices.x.id = erased_id)) ∧
    (e.id < 0 → (m.erased_e e = true ↔ (m.bRead (-1 - e.id)).src.id = erased_id)) := by
  have hval_v : m.valid_v v = true ↔
      0 ≤ v.id ∧ v.id < (m.vertex_to_edge_.length : Int) ∧ (m.vRead v.id).id ≠ erased_id := by
    simp only [TriangleTopology.valid_v, TriangleTopology.erased_v, inRange,
      Bool.and_eq_true, Bool.not_eq_true', decide_eq_true_eq, decide_eq_false_iff_not]
    tauto
  have hval_f : m.valid_f f = true ↔
      0 ≤ f.id ∧ f.id < (m.faces_.length : Int) ∧ (m.fRead f.id).vertices.x.id ≠ erased_id := by
    simp only [TriangleTopology.valid_f, TriangleTopology.erased_f, inRange,
      Bool.and_eq_true, Bool.not_eq_true', decide_eq_true_eq, decide_eq_false_iff_not]
    tauto
  refine ⟨hval_v, hval_f, ?_, ?_, ?_, ?_, ?_, ?_, ?_, ?_, ?_, ?_, ?_⟩
  · intro he
    simp only [TriangleTopology.valid_e, if_pos he, TriangleTopology.valid_f,
      TriangleTopology.erased_f, inRange, Bool.and_eq_true, Bool.not_eq_true',
      decide_eq_true_eq, decide_eq_false_iff_not]
    constructor
    · rintro ⟨⟨h1, h2⟩, h3⟩
      exact ⟨by omega, h3⟩
    · rintro ⟨h1, h2⟩
      exact ⟨⟨by omega, by omega⟩, h2⟩
  · intro he
    simp only [TriangleTopology.valid_e, if_neg (by omega : ¬ 0 ≤ e.id), inRange,
      Bool.and_eq_true, decide_eq_true_eq, bne_iff_ne, ne_eq]
    constructor
    · rintro ⟨⟨h1, h2⟩, h3⟩
      exact ⟨h2, h3⟩
    · rintro ⟨h1, h2⟩
      exact ⟨⟨by omega, h1⟩, h2⟩
  · intro hv
    simp only [TriangleTopology.erased_v, decide_eq_true_eq] at hv
    rw [Bool.eq_false_iff]
    intro hcon
    exact (hval_v.mp hcon).2.2 hv
  · intro hf
    simp only [TriangleTopology.erased_f, decide_eq_true_eq] at hf
    rw [Bool.eq_false_iff]
    intro hcon
    exact (hval_f.mp hcon).2.2 hf
  · intro he
    rw [Bool.eq_false_iff]
    intro hcon
    by_cases h0 : 0 ≤ e.id
    · simp only [TriangleTopology.erased_e, if_pos h0, decide_eq_true_eq] at he
      simp only [TriangleTopology.valid_e, if_pos h0, TriangleTopology.valid_f,
        TriangleTopology.erased_f, inRange, Bool.and_eq_true, Bool.not_eq_true',
        decide_eq_true_eq, decide_eq_false_iff_not] at hcon
      exact hcon.2 he
    · simp only [TriangleTopology.erased_e, if_neg h0, decide_eq_true_eq] at he
      simp only [TriangleTopology.valid_e, if_neg h0, Bool.and_eq_true,
        decide_eq_true_eq, ne_eq] at hcon
      exact hcon.2 he
  · intro hrange
    rw [Bool.eq_false_iff]
    intro hcon
    exact hrange ⟨(hval_v.mp hcon).1, (hval_v.mp hcon).2.1⟩
  · intro hrange
    rw [Bool.eq_false_iff]
    intro hcon
    exact hrange ⟨(hval_f.mp hcon).1, (hval_f.mp hcon).2.1⟩
  · simp [TriangleTopology.erased_v]
  · simp [TriangleTopology.erased_f]
  · intro he
    simp [TriangleTopology.erased_e, if_pos he]
  · intro he
    simp [TriangleTopology.erased_e, if_neg (by omega : ¬ 0 ≤ e.id)]

/-- Witness for the C10 theorem: concrete validity facts on the one
triangle mesh, via the characterisation. -/
theorem valid_erased_characterisation_witness :
    tri1.valid_v ⟨0⟩ = true ∧ tri1.valid_e ⟨-1⟩ = true ∧ tri1.valid_v ⟨3⟩ = false :=
  have h := valid_erased_characterisation tri1 ⟨0⟩ ⟨0⟩ ⟨-1⟩
  have h3 := valid_erased_characterisation tri1 ⟨3⟩ ⟨0⟩ ⟨-1⟩
  ⟨h.1.mpr (by decide), (h.2.2.2.1 (by decide)).mpr (by decide),
   h3.2.2.2.2.2.2.2.1 (by decide)⟩

/-- C8: erasing a boundary halfedge b tombstones the slot's source vertex,
splices b onto the front of the erased free list by redirecting its next
field to the previous head (the new head being b), and decrements the live
boundary count by one; the slot's prev and reverse, every other boundary
slot, the face array, the vertex-to-edge array, and all capacities are
unchanged. -/
theorem unsafe_set_erased_boundary_frame (m : TriangleTopology) (b : HalfedgeId)
    (hneg : b.id < 0) (hin : inRange m.boundaries_ (-1 - b.id) = true) :
    ((m.unsafe_set_erased_b b).bRead (-1 - b.id)).src.id = erased_id ∧
    ((m.unsafe_set_erased_b b).bRead (-1 - b.id)).next = m.erased_boundaries_ ∧
    (m.unsafe_set_erased_b b).erased_boundaries_ = b ∧
    (m.unsafe_set_erased_b b).n_boundary_edges_ = m.n_boundary_edges_ - 1 ∧
    ((m.unsafe_set_erased_b b).bRead (-1 - b.id)).prev = (m.bRead (-1 - b.id)).prev ∧
    ((m.unsafe_set_erased_b b).bRead (-1 - b.id)).reverse = (m.bRead (-1 - b.id)).reverse ∧
    (∀ j : Int, j ≠ -1 - b.id → (m.unsafe_set_erased_b b).bRead j = m.bRead j) ∧
    (m.unsafe_set_erased_b b).boundaries_.length = m.boundaries_.length ∧
    (m.unsafe_set_erased_b b).faces_ = m.faces_ ∧
    (m.unsafe_set_erased_b b).vertex_to_edge_ = m.vertex_to_edge_ ∧
    (m.unsafe_set_erased_b b).n_vertices_ = m.n_vertices_ ∧
    (m.unsafe_set_erased_b b).n_faces_ = m.n_faces_ := by
  simp only [inRange, decide_eq_true_eq] at hin
  have h0 : 0 ≤ -1 - b.id := by omega
  have hset : ((m.unsafe_set_erased_b b).bRead (-1 - b.id)) =
      { m.bRead (-1 - b.id) with src := ⟨erased_id⟩, next := m.erased_boundaries_ } := by
    show iget (iset m.boundaries_ _ _) _ _ = _
    rw [iget_iset_self _ _ _ _ h0 hin.2]
  refine ⟨?_, ?_, rfl, rfl, ?_, ?_, ?_, ?_, rfl, rfl, rfl, rfl⟩
  · rw [hset]
  · rw [hset]
  · rw [hset]
  · rw [hset]
  · intro j hj
    show iget (iset m.boundaries_ _ _) _ _ = _
    rw [iget_iset_ne _ _ _ _ _ hj]
    rfl
  · exact iset_length _ _ _

/-- Witness for the C8 theorem: erase boundary halfedge -1 of the single
triangle mesh. -/
theorem unsafe_set_erased_boundary_frame_witness :
    ((tri1.unsafe_set_erased_b ⟨-1⟩).bRead 0).src.id = erased_id ∧
    (tri1.unsafe_set_erased_b ⟨-1⟩).n_boundary_edges_ = tri1.n_boundary_edges_ - 1 :=
  have h := unsafe_set_erased_boundary_frame tri1 ⟨-1⟩ (by decide) (by decide)
  ⟨h.1, h.2.2.2.1⟩

/-- Modelled from the spec: geode UntypedArray (the type-erased backing
array of the field registry, geode/array/UntypedArray.h) is not in src/.
The registry claims concern only the element count of the backing array
(UntypedArray(Types,n) allocates n default slots, and Field(n) in
src/geode/array/Field.h allocates flat(n)), so the model keeps the size. -/
structure UntypedArray where
  size : Int
deriving DecidableEq, Repr

/-- Modelled from the spec: geode Hashtable<int,int> (not in src/) used as
id-to-slot map; get on a missing key fails with a lookup error. -/
def hashContains (table : List (Int × Int)) (k : Int) : Bool :=
  table.any fun p => p.1 = k

/-- Modelled from the spec: Hashtable::get fails with a lookup error when
the key was never registered. -/
def hashGet (table : List (Int × Int)) (k : Int) : Except String Int :=
  match table.find? (fun p => p.1 = k) with
  | some p => Except.ok p.2
  | none => Except.error "Hashtable.get: key not found"

/-- Modelled from the spec: Hashtable::set. -/
def hashSet (table : List (Int × Int)) (k v : Int) : List (Int × Int) :=
  table ++ [(k, v)]

/-- MutableTriangleTopology state: the topology plus the typed field
registry (per-kind field arrays, id-to-slot maps, and the id counter). -/
structure MutableTriangleTopology where
  topo : TriangleTopology
  vertex_fields : List UntypedArray
  face_fields : List UntypedArray
  halfedge_fields : List UntypedArray
  id_to_vertex_field : List (Int × Int)
  id_to_face_field : List (Int × Int)
  id_to_halfedge_field : List (Int × Int)
  next_field_id : Int
deriving DecidableEq, Repr

namespace MutableTriangleTopology

/-- Body of the FIELD_ACCESS_FUNCTIONS add macro (TriangleTopology.h lines
321-331): resolve the id (fresh from next_field_id when the caller passes
invalid_id), fail if already registered (GEODE_ASSERT), push a backing
array of the supplied size, and record the slot.  Returns the new fields,
table, next counter, and the field id. -/
def resolveFieldId (next id0 : Int) : Int :=
  if id0 = invalid_id then next else id0

/-- Update of next_field_id performed by the add macro. -/
def bumpFieldId (next id0 : Int) : Int :=
  if id0 = invalid_id then next + 1 else max next (id0 + 1)

def addFieldHelper (fields : List UntypedArray) (table : List (Int × Int))
    (next : Int) (id0 : Int) (sz : Int) :
    Except String (List UntypedArray × List (Int × Int) × Int × Int) :=
  if hashContains table (resolveFieldId next id0) then
    Except.error "GEODE_ASSERT: field id already registered"
  else
    Except.ok (fields ++ [⟨sz⟩], hashSet table (resolveFieldId next id0) fields.length,
      bumpFieldId next id0, resolveFieldId next id0)

/-- add_vertex_field: backing array sized vertex_to_edge_.size(). -/
def add_vertex_field (M : MutableTriangleTopology) (id0 : Int) :
    Except String (MutableTriangleTopology × Int) :=
  match addFieldHelper M.vertex_fields M.id_to_vertex_field M.next_field_id id0
      (M.topo.vertex_to_edge_.length : Int) with
  | Except.ok (fs, tb, nx, fid) =>
      Except.ok ({ M with vertex_fields := fs, id_to_vertex_field := tb, next_field_id := nx }, fid)
  | Except.error s => Except.error s

/-- add_face_field: backing array sized faces_.size(). -/
def add_face_field (M : MutableTriangleTopology) (id0 : Int) :
    Except String (MutableTriangleTopology × Int) :=
  match addFieldHelper M.face_fields M.id_to_face_field M.next_field_id id0
      (M.topo.faces_.length : Int) with
  | Except.ok (fs, tb, nx, fid) =>
      Except.ok ({ M with face_fields := fs, id_to_face_field := tb, next_field_id := nx }, fid)
  | Except.error s => Except.error s

/-- add_halfedge_field: backing array sized faces_.size()*3. -/
def add_halfedge_field (M : MutableTriangleTopology) (id0 : Int) :
    Except String (MutableTriangleTopology × Int) :=
  match addFieldHelper M.halfedge_fields M.id_to_halfedge_field M.next_field_id id0
      ((M.topo.faces_.length : Int) * 3) with
  | Except.ok (fs, tb, nx, fid) =>
      Except.ok ({ M with halfedge_fields := fs, id_to_halfedge_field := tb, next_field_id := nx }, fid)
  | Except.error s => Except.error s

/-- Typed field accessor for vertex fields: table lookup (failing for an
unregistered handle) then the stored backing array. -/
def vertex_field (M : MutableTriangleTopology) (fid : Int) : Except String UntypedArray :=
  match hashGet M.id_to_vertex_field fid with
  | Except.ok k => Except.ok (iget M.vertex_fields k ⟨0⟩)
  | Except.error s => Except.error s

/-- Typed field accessor for face fields. -/
def face_field (M : MutableTriangleTopology) (fid : Int) : Except String UntypedArray :=
  match hashGet M.id_to_face_field fid with
  | Except.ok k => Except.ok (iget M.face_fields k ⟨0⟩)
  | Except.error s => Except.error s

/-- Typed field accessor for halfedge fields. -/
def halfedge_field (M : MutableTriangleTopology) (fid : Int) : Except String UntypedArray :=
  match hashGet M.id_to_halfedge_field fid with
  | Except.ok k => Except.ok (iget M.halfedge_fields k ⟨0⟩)
  | Except.error s => Except.error s

end MutableTriangleTopology

theorem hashGet_hashSet_fresh (table : List (Int × Int)) (k v : Int)
    (h : hashContains table k = false) : hashGet (hashSet table k v) k = Except.ok v := by
  unfold hashGet hashSet
  have hfind : (table ++ [(k, v)]).find? (fun p => p.1 = k) = some (k, v) := by
    induction table with
    | nil => simp [List.find?]
    | cons a l ih =>
        unfold hashContains at h
        simp only [List.any_cons, Bool.or_eq_false_iff] at h
        rw [List.cons_append, List.find?]
        rw [h.1]
        exact ih (by unfold hashContains; exact h.2)
  rw [hfind]

theorem iget_append_self {α : Type} (l : List α) (a d : α) :
    iget (l ++ [a]) (l.length : Int) d = a := by
  unfold iget
  rw [if_pos (by positivity)]
  rw [Int.toNat_natCast]
  rw [List.getD_append_right _ _ _ _ (le_refl _)]
  simp

theorem addFieldHelper_ok (fields : List UntypedArray) (table : List (Int × Int))
    (next id0 sz : Int) (fs : List UntypedArray) (tb : List (Int × Int)) (nx fid : Int)
    (h : MutableTriangleTopology.addFieldHelper fields table next id0 sz =
      Except.ok (fs, tb, nx, fid)) :
    hashContains table fid = false ∧ fs = fields ++ [⟨sz⟩] ∧
    tb = hashSet table fid fields.length := by
  unfold MutableTriangleTopology.addFieldHelper at h
  split at h
  · exact absurd h (by simp)
  · rename_i hc
    injection h with h1
    injection h1 with ha h1
    injection h1 with hb h1
    injection h1 with hc1 hd
    subst ha hb hd
    exact ⟨by simpa using hc, rfl, rfl⟩

/-- Entry test for a halfedge handle against a backing array of the given
size: fields are flat arrays indexed by the non-negative encoding. -/
def UntypedArray.hasEntry (a : UntypedArray) (e : HalfedgeId) : Bool :=
  0 ≤ e.id ∧ e.id < a.size

/-- C7: registering a field allocates a backing array whose size is the
current element capacity of its kind (vertex_to_edge_.size() for
vertices, faces_.size() for faces, 3*faces_.size() for halfedges); a
halfedge field consequently has entries exactly for the interior halfedge
encodings and never for a (negative) boundary halfedge; and accessing a
field through an unregistered handle fails with a lookup error. -/
theorem field_registration_sizes (M : MutableTriangleTopology) (id0 : Int) :
    (∀ M1 fid, M.add_vertex_field id0 = Except.ok (M1, fid) →
      M1.vertex_field fid = Except.ok ⟨(M.topo.vertex_to_edge_.length : Int)⟩) ∧
    (∀ M1 fid, M.add_face_field id0 = Except.ok (M1, fid) →
      M1.face_field fid = Except.ok ⟨(M.topo.faces_.length : Int)⟩) ∧
    (∀ M1 fid, M.add_halfedge_field id0 = Except.ok (M1, fid) →
      M1.halfedge_field fid = Except.ok ⟨(M.topo.faces_.length : Int) * 3⟩ ∧
      (∀ e : HalfedgeId,
        UntypedArray.hasEntry ⟨(M.topo.faces_.length : Int) * 3⟩ e = true ↔
          0 ≤ e.id ∧ e.id < 3 * (M.topo.faces_.length : Int)) ∧
      (∀ e : HalfedgeId, M.topo.is_boundary_e e = true →
        UntypedArray.hasEntry ⟨(M.topo.faces_.length : Int) * 3⟩ e = false)) ∧
    (∀ fid, hashContains M.id_to_vertex_field fid = false →
      ∃ msg, M.vertex_field fid = Except.error msg) ∧
    (∀ fid, hashContains M.id_to_face_field fid = false →
      ∃ msg, M.face_field fid = Except.error msg) ∧
    (∀ fid, hashContains M.id_to_halfedge_field fid = false →
      ∃ msg, M.halfedge_field fid = Except.error msg) := by
  have hget_none : ∀ (tb : List (Int × Int)) (fid : Int), hashContains tb fid = false →
      hashGet tb fid = Except.error "Hashtable.get: key not found" := by
    intro tb fid h
    unfold hashGet
    have : tb.find? (fun p => p.1 = fid) = none := by
      rw [List.find?_eq_none]
      intro p hp
      unfold hashContains at h
      rw [List.any_eq_false] at h
      exact h p hp
    rw [this]
  refine ⟨?_, ?_, ?_, ?_, ?_, ?_⟩
  · intro M1 fid h
    unfold MutableTriangleTopology.add_vertex_field at h
    split at h
    · rename_i fs tb nx fid0 heq
      injection h with h1
      injection h1 with hM hfid
      subst hM hfid
      obtain ⟨hc, hfs, htb⟩ := addFieldHelper_ok _ _ _ _ _ _ _ _ _ heq
      simp only [MutableTriangleTopology.vertex_field, hfs, htb,
        hashGet_hashSet_fresh _ _ _ hc, iget_append_self]
    · exact absurd h (by simp)
  · intro M1 fid h
    unfold MutableTriangleTopology.add_face_field at h
    split at h
    · rename_i fs tb nx fid0 heq
      injection h with h1
      injection h1 with hM hfid
      subst hM hfid
      obtain ⟨hc, hfs, htb⟩ := addFieldHelper_ok _ _ _ _ _ _ _ _ _ heq
      simp only [MutableTriangleTopology.face_field, hfs, htb,
        hashGet_hashSet_fresh _ _ _ hc, iget_append_self]
    · exact absurd h (by simp)
  · intro M1 fid h
    refine ⟨?_, ?_, ?_⟩
    · unfold MutableTriangleTopology.add_halfedge_field at h
      split at h
      · rename_i fs tb nx fid0 heq
        injection h with h1
        injection h1 with hM hfid
        subst hM hfid
        obtain ⟨hc, hfs, htb⟩ := addFieldHelper_ok _ _ _ _ _ _ _ _ _ heq
        simp only [MutableTriangleTopology.halfedge_field, hfs, htb,
          hashGet_hashSet_fresh _ _ _ hc, iget_append_self]
      · exact absurd h (by simp)
    · intro e
      unfold UntypedArray.hasEntry
      simp only [decide_eq_true_eq]
      omega
    · intro e he
      simp only [TriangleTopology.is_boundary_e, decide_eq_true_eq] at he
      unfold UntypedArray.hasEntry
      simp only [decide_eq_false_iff_not]
      omega
  · intro fid h
    refine ⟨"Hashtable.get: key not found", ?_⟩
    unfold MutableTriangleTopology.vertex_field
    rw [hget_none _ _ h]
  · intro fid h
    refine ⟨"Hashtable.get: key not found", ?_⟩
    unfold MutableTriangleTopology.face_field
    rw [hget_none _ _ h]
  · intro fid h
    refine ⟨"Hashtable.get: key not found", ?_⟩
    unfold MutableTriangleTopology.halfedge_field
    rw [hget_none _ _ h]

/-- Empty registry wrapped around the single triangle mesh. -/
def mutTri1 : MutableTriangleTopology :=
  ⟨tri1, [], [], [], [], [], [], 0⟩

/-- Witness for the C7 theorem: register a halfedge field on the single
triangle mesh (capacity 3 faces * ... = 3 interior halfedges) and access
an unregistered vertex field. -/
theorem field_registration_sizes_witness :
    mutTri1.halfedge_field 0 =
      Except.ok ⟨(mutTri1.topo.faces_.length : Int) * 3⟩ ∨
    (∃ M1 fid, mutTri1.add_halfedge_field invalid_id = Except.ok (M1, fid) ∧
      M1.halfedge_field fid = Except.ok ⟨(mutTri1.topo.faces_.length : Int) * 3⟩) := by
  right
  obtain ⟨M1, fid, hok⟩ : ∃ M1 fid,
      mutTri1.add_halfedge_field invalid_id = Except.ok (M1, fid) := ⟨_, _, rfl⟩
  exact ⟨M1, fid, hok, ((field_registration_sizes mutTri1 invalid_id).2.2.1 M1 fid hok).1⟩

namespace TriangleTopology

/-- All halfedge ids backed by slots (the all_halfedges range of the
header): interior encodings 0..3*faces_.size()-1 and boundary encodings
-1..-boundaries_.size(). -/
def allHalfedgeIds (m : TriangleTopology) : List HalfedgeId :=
  ((List.range (3 * m.faces_.length)).map fun k => ⟨(k : Int)⟩) ++
  ((List.range m.boundaries_.length).map fun k => ⟨-1 - (k : Int)⟩)

/-- The outgoing halfedges of v: the valid halfedges whose source is v. -/
def outgoingList (m : TriangleTopology) (v : VertexId) : List HalfedgeId :=
  (allHalfedgeIds m).filter fun e => m.valid_e e && decide (m.src e = v)

/-- Modelled from the spec: degree(VertexId), whose body is not in src/,
is the edge degree of v, i.e. the number of outgoing halfedges. -/
def degree (m : TriangleTopology) (v : VertexId) : Nat :=
  (m.outgoingList v).length

/-- One turn of the range-based for loop over TriangleTopologyOutgoing:
the loop continues while (first || e != stop), yields e, and advances
with e = left(e), first = false; fuel exhaustion returns none. -/
def outgoingWalkAux (m : TriangleTopology) (stop : HalfedgeId) :
    Nat → HalfedgeId → Bool → Option (List HalfedgeId)
  | 0, e, first => if first = true ∨ e ≠ stop then none else some []
  | fuel + 1, e, first =>
      if first = true ∨ e ≠ stop then
        match outgoingWalkAux m stop fuel (m.left e) false with
        | some l => some (e :: l)
        | none => none
      else some []

/-- TriangleTopology::outgoing(v) consumed by a range-based for loop: the
iterator starts at halfedge(v) with first = halfedge(v).valid(). -/
def outgoingWalk (m : TriangleTopology) (v : VertexId) (fuel : Nat) :
    Option (List HalfedgeId) :=
  outgoingWalkAux m (m.halfedge_v v) fuel (m.halfedge_v v) (m.halfedge_v v).isValid

theorem allHalfedgeIds_nodup (m : TriangleTopology) : (m.allHalfedgeIds).Nodup := by
  unfold allHalfedgeIds
  refine List.Nodup.append ?_ ?_ ?_
  · exact (List.nodup_range _).map (fun a b h => by
      simpa using congrArg HalfedgeId.id h)
  · exact (List.nodup_range _).map (fun a b h => by
      have := congrArg HalfedgeId.id h
      simp only at this
      omega)
  · intro a ha hb
    simp only [List.mem_map, List.mem_range] at ha hb
    obtain ⟨k, _, hk⟩ := ha
    obtain ⟨j, _, hj⟩ := hb
    rw [← hk] at hj
    have := congrArg HalfedgeId.id hj
    simp only at this
    omega

theorem outgoingList_nodup (m : TriangleTopology) (v : VertexId) :
    (m.outgoingList v).Nodup :=
  (m.allHalfedgeIds_nodup).filter _

end TriangleTopology

/-- Orbit of an injective self-map of a finite set that reaches every
element from x in fewer than |S| steps: the first |S| iterates are
pairwise distinct, the |S|-th iterate closes the cycle, and the orbit
list enumerates S. -/
theorem orbit_cycle {α : Type} [DecidableEq α] (f : α → α) (S : List α) (x : α)
    (hnd : S.Nodup) (hx : x ∈ S)
    (hclosed : ∀ a ∈ S, f a ∈ S)
    (hinj : ∀ a ∈ S, ∀ b ∈ S, f a = f b → a = b)
    (hreach : ∀ y ∈ S, ∃ k, k < S.length ∧ f^[k] x = y) :
    (∀ i j, i < j → j < S.length → f^[i] x ≠ f^[j] x) ∧
    f^[S.length] x = x ∧
    (∀ y, y ∈ (List.range S.length).map (fun k => f^[k] x) ↔ y ∈ S) := by
  set n := S.length with hn
  have horb : ∀ k : Nat, f^[k] x ∈ S := by
    intro k
    induction k with
    | zero => simpa using hx
    | succ k ih => rw [Function.iterate_succ_apply']; exact hclosed _ ih
  have himage : S.toFinset ⊆ (Finset.range n).image (fun k => f^[k] x) := by
    intro y hy
    rw [List.mem_toFinset] at hy
    obtain ⟨k, hk, hky⟩ := hreach y hy
    exact Finset.mem_image.mpr ⟨k, Finset.mem_range.mpr hk, hky⟩
  have hcard : ((Finset.range n).image (fun k => f^[k] x)).card = (Finset.range n).card := by
    refine le_antisymm (Finset.card_image_le) ?_
    calc (Finset.range n).card = n := Finset.card_range n
    _ = S.toFinset.card := (List.toFinset_card_of_nodup hnd).symm
    _ ≤ _ := Finset.card_le_card himage
  have hInj : Set.InjOn (fun k => f^[k] x) (Finset.range n : Set Nat) :=
    Finset.injOn_of_card_image_eq hcard
  have hA : ∀ i j, i < j → j < n → f^[i] x ≠ f^[j] x := by
    intro i j hij hjn heq
    have : i = j := hInj (by simp; omega) (by simp; omega) heq
    omega
  have hn1 : 1 ≤ n := by
    have : 0 < S.length := List.length_pos.mpr (List.ne_nil_of_mem hx)
    omega
  have hB : f^[n] x = x := by
    obtain ⟨k, hk, hky⟩ := hreach (f^[n] x) (horb n)
    rcases Nat.eq_zero_or_pos k with h0 | hpos
    · rw [h0] at hky
      simpa using hky.symm
    · exfalso
      have hk1 : f^[(k - 1) + 1] x = f^[(n - 1) + 1] x := by
        rw [Nat.sub_add_cancel hpos, Nat.sub_add_cancel hn1]
        exact hky
      rw [Function.iterate_succ_apply', Function.iterate_succ_apply'] at hk1
      have := hinj _ (horb (k - 1)) _ (horb (n - 1)) hk1
      exact hA (k - 1) (n - 1) (by omega) (by omega) this
  refine ⟨hA, hB, ?_⟩
  intro y
  simp only [List.mem_map, List.mem_range]
  constructor
  · rintro ⟨k, _, rfl⟩
    exact horb k
  · intro hy
    obtain ⟨k, hk, hky⟩ := hreach y hy
    exact ⟨k, hk, hky⟩

theorem outgoingWalkAux_orbit (m : TriangleTopology) (x : HalfedgeId) (n : Nat)
    (hA : ∀ i j, i < j → j < n → (m.left)^[i] x ≠ (m.left)^[j] x)
    (hB : (m.left)^[n] x = x) :
    ∀ d j, 1 ≤ j → j + d = n →
      TriangleTopology.outgoingWalkAux m x d ((m.left)^[j] x) false =
        some ((List.range d).map fun k => (m.left)^[j + k] x) := by
  intro d
  induction d with
  | zero =>
      intro j h1 hjn
      have hj : j = n := by omega
      subst hj
      simp only [TriangleTopology.outgoingWalkAux, hB]
      rw [if_neg (by simp)]
      simp
  | succ d ih =>
      intro j h1 hjn
      have hjn' : j < n := by omega
      have hne : (m.left)^[j] x ≠ x := by
        intro hcon
        exact hA 0 j (by omega) (by omega) (by simpa using hcon.symm)
      simp only [TriangleTopology.outgoingWalkAux]
      rw [if_pos (Or.inr hne)]
      have hstep : m.left ((m.left)^[j] x) = (m.left)^[j + 1] x :=
        (Function.iterate_succ_apply' m.left j x).symm
      rw [hstep, ih (j + 1) (by omega) (by omega)]
      simp only [Option.some.injEq]
      rw [List.range_succ_eq_map, List.map_cons, List.map_map]
      simp only [List.cons.injEq]
      constructor
      · rw [Nat.add_zero]
      · exact List.map_congr_left fun a _ => by
          simp only [Function.comp_apply, Nat.succ_eq_add_one]
          congr 1
          omega

/-- C9: for a vertex v whose link is manifold (stated as: left maps the
outgoing set of v into itself injectively and reaches every outgoing
halfedge from halfedge(v) in fewer than degree(v) steps, and halfedge(v)
is invalid exactly when the outgoing set is empty), the outgoing(v) walk
terminates within degree(v) steps and yields each outgoing halfedge of v
exactly once; for an isolated vertex it is empty. -/
theorem outgoing_walk_enumerates (m : TriangleTopology) (v : VertexId)
    (hmem : (m.halfedge_v v).isValid = true → m.halfedge_v v ∈ m.outgoingList v)
    (hiso : (m.halfedge_v v).isValid = false → m.outgoingList v = [])
    (hclosed : ∀ a ∈ m.outgoingList v, m.left a ∈ m.outgoingList v)
    (hinj : ∀ a ∈ m.outgoingList v, ∀ b ∈ m.outgoingList v, m.left a = m.left b → a = b)
    (hreach : ∀ y ∈ m.outgoingList v, ∃ k, k < (m.outgoingList v).length ∧
      (m.left)^[k] (m.halfedge_v v) = y) :
    ∃ L, m.outgoingWalk v (m.degree v) = some L ∧ L.Nodup ∧
      (∀ e, e ∈ L ↔ e ∈ m.outgoingList v) ∧ L.length = m.degree v ∧
      ((m.halfedge_v v).isValid = false → L = []) := by
  cases hb : (m.halfedge_v v).isValid with
  | false =>
    have hS : m.outgoingList v = [] := hiso hb
    refine ⟨[], ?_, List.nodup_nil, ?_, ?_, fun _ => rfl⟩
    · unfold TriangleTopology.outgoingWalk TriangleTopology.degree
      rw [hS, hb]
      simp only [List.length_nil, TriangleTopology.outgoingWalkAux]
      rw [if_neg (by simp)]
    · intro e
      rw [hS]
    · unfold TriangleTopology.degree
      rw [hS]
  | true =>
    have hx : m.halfedge_v v ∈ m.outgoingList v := hmem hb
    obtain ⟨hA, hB, hmemiff⟩ := orbit_cycle (m.left) (m.outgoingList v) (m.halfedge_v v)
      (m.outgoingList_nodup v) hx hclosed hinj hreach
    set n := (m.outgoingList v).length with hn
    have hn1 : 1 ≤ n := by
      have : 0 < (m.outgoingList v).length := List.length_pos.mpr (List.ne_nil_of_mem hx)
      omega
    set x := m.halfedge_v v with hxdef
    refine ⟨(List.range n).map fun k => (m.left)^[k] x, ?_, ?_, hmemiff,
      by simp [TriangleTopology.degree, hn], ?_⟩
    · unfold TriangleTopology.outgoingWalk TriangleTopology.degree
      rw [← hxdef, ← hn, hb]
      obtain ⟨d, hd⟩ : ∃ d, n = d + 1 := ⟨n - 1, by omega⟩
      rw [hd]
      simp only [TriangleTopology.outgoingWalkAux]
      rw [if_pos (show True ∨ x ≠ x from Or.inl trivial)]
      have hbridge := outgoingWalkAux_orbit m x n hA hB d 1 (by omega) (by omega)
      rw [Function.iterate_one] at hbridge
      rw [hbridge]
      simp only [Option.some.injEq]
      rw [List.range_succ_eq_map, List.map_cons, List.map_map]
      simp only [List.cons.injEq]
      refine ⟨by simp, ?_⟩
      exact (List.map_congr_left fun a _ => by
        simp only [Function.comp_apply, Nat.succ_eq_add_one]
        congr 1
        omega).symm
    · refine List.Nodup.map_on ?_ (List.nodup_range n)
      intro i hi j hj hgij
      rw [List.mem_range] at hi hj
      by_contra hne
      rcases Nat.lt_or_ge i j with h | h
      · exact hA i j h hj hgij
      · exact hA j i (by omega) hi hgij.symm
    · intro hcon
      simp at hcon

/-- Witness for the C9 theorem: the walk around vertex 0 of the single
triangle (outgoing halfedges: boundary -3 and interior 0). -/
theorem outgoing_walk_enumerates_witness :
    ∃ L, tri1.outgoingWalk ⟨0⟩ (tri1.degree ⟨0⟩) = some L ∧ L.Nodup ∧
      (∀ e, e ∈ L ↔ e ∈ tri1.outgoingList ⟨0⟩) ∧ L.length = tri1.degree ⟨0⟩ ∧
      ((tri1.halfedge_v ⟨0⟩).isValid = false → L = []) :=
  outgoing_walk_enumerates tri1 ⟨0⟩ (by decide) (by decide) (by decide) (by decide)
    (by decide)

/-- Component update vertices[i] = a for i in [0,3). -/
def Vec3.set {α : Type} (v : Vec3 α) (i : Int) (a : α) : Vec3 α :=
  if i = 0 then { v with x := a } else if i = 1 then { v with y := a } else { v with z := a }

theorem iget_iset {α : Type} (l : List α) (k j : Int) (a d : α) :
    iget (iset l k a) j d =
      if 0 ≤ k ∧ k < (l.length : Int) ∧ j = k then a else iget l j d := by
  by_cases hc : 0 ≤ k ∧ k < (l.length : Int) ∧ j = k
  · rw [if_pos hc, hc.2.2]
    exact iget_iset_self l k a d hc.1 hc.2.1
  · rw [if_neg hc]
    by_cases hk0 : 0 ≤ k
    · by_cases hkl : k < (l.length : Int)
      · have hjk : j ≠ k := fun h => hc ⟨hk0, hkl, h⟩
        exact iget_iset_ne l k j a d hjk
      · unfold iset
        rw [if_pos hk0, List.set_eq_of_length_le (by omega)]
    · unfold iset
      rw [if_neg hk0]

namespace TriangleTopology

/-- TriangleTopology::unsafe_set_reverse(FaceId f, int i, HalfedgeId r)
(source lines 117-124): store r as neighbor i of f, and point the reverse
slot of r (a face neighbor slot for interior r, the boundary reverse field
otherwise) back at the interior halfedge 3*f+i. -/
def unsafe_set_reverse (m : TriangleTopology) (f : FaceId) (i : Int) (r : HalfedgeId) :
    TriangleTopology :=
  let m1 := { m with
    faces_ := iset m.faces_ f.id
      { m.fRead f.id with neighbors := (m.fRead f.id).neighbors.set i r } }
  if 0 ≤ r.id then
    let f1 := r.id / 3
    { m1 with
      faces_ := iset m1.faces_ f1
        { m1.fRead f1 with
          neighbors := (m1.fRead f1).neighbors.set (r.id - 3 * f1) ⟨3 * f.id + i⟩ } }
  else
    { m1 with
      boundaries_ := iset m1.boundaries_ (-1 - r.id)
        { m1.bRead (-1 - r.id) with reverse := ⟨3 * f.id + i⟩ } }

theorem unsafe_set_reverse_vertices (m : TriangleTopology) (f : FaceId) (i : Int)
    (r : HalfedgeId) (j : Int) :
    ((m.unsafe_set_reverse f i r).fRead j).vertices = (m.fRead j).vertices := by
  unfold unsafe_set_reverse fRead
  by_cases hr : 0 ≤ r.id
  · rw [if_pos hr]
    simp only [iget_iset, iset_length]
    split
    · rename_i h
      rw [h.2.2]
      split
      · rename_i h2
        rw [h2.2.2]
      · rfl
    · split
      · rename_i h2
        rw [h2.2.2]
      · rfl
  · rw [if_neg hr]
    simp only [iget_iset]
    split
    · rename_i h
      rw [h.2.2]
    · rfl

theorem unsafe_set_reverse_frame (m : TriangleTopology) (f : FaceId) (i : Int)
    (r : HalfedgeId) :
    (m.unsafe_set_reverse f i r).n_vertices_ = m.n_vertices_ ∧
    (m.unsafe_set_reverse f i r).n_faces_ = m.n_faces_ ∧
    (m.unsafe_set_reverse f i r).n_boundary_edges_ = m.n_boundary_edges_ ∧
    (m.unsafe_set_reverse f i r).vertex_to_edge_ = m.vertex_to_edge_ ∧
    (m.unsafe_set_reverse f i r).faces_.length = m.faces_.length ∧
    (m.unsafe_set_reverse f i r).boundaries_.length = m.boundaries_.length := by
  unfold unsafe_set_reverse
  by_cases hr : 0 ≤ r.id
  · rw [if_pos hr]
    refine ⟨rfl, rfl, rfl, rfl, ?_, rfl⟩
    simp only [iset_length]
  · rw [if_neg hr]
    refine ⟨rfl, rfl, rfl, rfl, ?_, ?_⟩
    · simp only [iset_length]
    · simp only [iset_length]

end TriangleTopology

namespace TriangleTopology

/-- Modelled from the spec: halfedge(VertexId,VertexId) (body not in
src/) finds the halfedge from v0 to v1, returning an invalid handle if
none exists. -/
def halfedge_between (m : TriangleTopology) (v0 v1 : VertexId) : HalfedgeId :=
  match (m.allHalfedgeIds).find? (fun e =>
      m.valid_e e && decide (m.src e = v0) && decide (m.dst e = v1)) with
  | some e => e
  | none => ⟨invalid_id⟩

/-- Modelled from the spec: is_flip_safe(e) (body not in src/) holds when
both incident faces of e exist (e valid, neither e nor reverse(e) on the
boundary) and the two opposite vertices are distinct and not already
connected by an edge. -/
def is_flip_safe (m : TriangleTopology) (e : HalfedgeId) : Bool :=
  m.valid_e e && !(m.is_boundary_e e) && !(m.is_boundary_e (m.reverse e)) &&
    (decide (m.src (m.prev e) ≠ m.src (m.prev (m.reverse e))) &&
     !(m.halfedge_between (m.src (m.prev e)) (m.src (m.prev (m.reverse e)))).isValid)

/-- Modelled from the spec: after a flip relabels the interior halfedges
of the two faces, a vertex whose stored outgoing halfedge lay in one of
them is repointed at a fresh outgoing halfedge. -/
def flipFixVertex (m : TriangleTopology) (f0 f1 : FaceId) (u : VertexId)
    (newOut : HalfedgeId) : TriangleTopology :=
  if 0 ≤ (m.vRead u.id).id ∧
      ((m.vRead u.id).id / 3 = f0.id ∨ (m.vRead u.id).id / 3 = f1.id) then
    { m with vertex_to_edge_ := iset m.vertex_to_edge_ u.id newOut }
  else m

/-- Modelled from the spec: first stage of a flip, relabelling the vertex
vectors of the two adjacent faces: f0 becomes (o0,o1,v1) and f1 becomes
(o1,o0,v0) where v0,v1 are the endpoints of the flipped diagonal and
o0,o1 the two opposite vertices. -/
def flipRelabel (m : TriangleTopology) (e0 : HalfedgeId) : TriangleTopology :=
  let f0 := (m.face e0).id
  let f1 := (m.face (m.reverse e0)).id
  let v0 := m.src e0
  let v1 := m.src (m.reverse e0)
  let o0 := m.src (m.prev e0)
  let o1 := m.src (m.prev (m.reverse e0))
  let m1 := { m with
    faces_ := iset m.faces_ f0 { m.fRead f0 with vertices := ⟨o0, o1, v1⟩ } }
  { m1 with
    faces_ := iset m1.faces_ f1 { m1.fRead f1 with vertices := ⟨o1, o0, v0⟩ } }

/-- Modelled from the spec: second stage of a flip on the relabelled
state m2: wire the new diagonal pair, re-attach the four outer reverses
to their re-labelled slots, and refresh the stored outgoing halfedges of
the four corner vertices. -/
def flipRewire (m2 : TriangleTopology) (f0 f1 : FaceId) (v0 v1 o0 o1 : VertexId)
    (rn0 rp0 rn1 rp1 : HalfedgeId) : TriangleTopology :=
  let m3 := m2.unsafe_set_reverse f0 0 ⟨3 * f1.id + 0⟩
  let m4 := m3.unsafe_set_reverse f0 1 rp1
  let m5 := m4.unsafe_set_reverse f0 2 rn0
  let m6 := m5.unsafe_set_reverse f1 1 rp0
  let m7 := m6.unsafe_set_reverse f1 2 rn1
  let m8 := m7.flipFixVertex f0 f1 v0 ⟨3 * f1.id + 2⟩
  let m9 := m8.flipFixVertex f0 f1 v1 ⟨3 * f0.id + 2⟩
  let m10 := m9.flipFixVertex f0 f1 o0 ⟨3 * f0.id + 0⟩
  m10.flipFixVertex f0 f1 o1 ⟨3 * f1.id + 0⟩

/-- Modelled from the spec: unsafe_flip_edge(e) (body not in src/)
replaces the diagonal of the two faces adjacent to interior edge e by the
other diagonal (relabel then rewire), returning the new handle of the
rotated diagonal (halfedge 0 of f0). -/
def unsafe_flip_edge (m : TriangleTopology) (e0 : HalfedgeId) :
    TriangleTopology × HalfedgeId :=
  (flipRewire (flipRelabel m e0) (m.face e0) (m.face (m.reverse e0))
      (m.src e0) (m.src (m.reverse e0))
      (m.src (m.prev e0)) (m.src (m.prev (m.reverse e0)))
      (m.reverse (m.next e0)) (m.reverse (m.prev e0))
      (m.reverse (m.next (m.reverse e0))) (m.reverse (m.prev (m.reverse e0))),
   ⟨3 * (m.face e0).id + 0⟩)

/-- Modelled from the spec: flip_edge(e) (body not in src/) checks
is_flip_safe and fails with a descriptive error when unsafe, otherwise
performs the unchecked flip and returns the rotated edge handle. -/
def flip_edge (m : TriangleTopology) (e : HalfedgeId) :
    Except String (TriangleTopology × HalfedgeId) :=
  if m.is_flip_safe e then Except.ok (m.unsafe_flip_edge e)
  else Except.error "flip_edge: edge flip is not safe"

theorem flipFixVertex_faces (m : TriangleTopology) (f0 f1 : FaceId) (u : VertexId)
    (h : HalfedgeId) : ((m.flipFixVertex f0 f1 u h).faces_ = m.faces_) ∧
    ((m.flipFixVertex f0 f1 u h).n_vertices_ = m.n_vertices_) ∧
    ((m.flipFixVertex f0 f1 u h).n_faces_ = m.n_faces_) ∧
    ((m.flipFixVertex f0 f1 u h).n_boundary_edges_ = m.n_boundary_edges_) := by
  unfold flipFixVertex
  split
  · exact ⟨rfl, rfl, rfl, rfl⟩
  · exact ⟨rfl, rfl, rfl, rfl⟩

theorem flipFixVertex_fRead (m : TriangleTopology) (f0 f1 : FaceId) (u : VertexId)
    (h : HalfedgeId) (j : Int) : (m.flipFixVertex f0 f1 u h).fRead j = m.fRead j := by
  unfold fRead
  rw [(flipFixVertex_faces m f0 f1 u h).1]

theorem flipFixVertex_nv (m : TriangleTopology) (f0 f1 : FaceId) (u : VertexId)
    (h : HalfedgeId) : (m.flipFixVertex f0 f1 u h).n_vertices_ = m.n_vertices_ :=
  (flipFixVertex_faces m f0 f1 u h).2.1

theorem flipFixVertex_nf (m : TriangleTopology) (f0 f1 : FaceId) (u : VertexId)
    (h : HalfedgeId) : (m.flipFixVertex f0 f1 u h).n_faces_ = m.n_faces_ :=
  (flipFixVertex_faces m f0 f1 u h).2.2.1

theorem flipFixVertex_nb (m : TriangleTopology) (f0 f1 : FaceId) (u : VertexId)
    (h : HalfedgeId) : (m.flipFixVertex f0 f1 u h).n_boundary_edges_ = m.n_boundary_edges_ :=
  (flipFixVertex_faces m f0 f1 u h).2.2.2

theorem usr_nv (m : TriangleTopology) (f : FaceId) (i : Int) (r : HalfedgeId) :
    (m.unsafe_set_reverse f i r).n_vertices_ = m.n_vertices_ :=
  (unsafe_set_reverse_frame m f i r).1

theorem usr_nf (m : TriangleTopology) (f : FaceId) (i : Int) (r : HalfedgeId) :
    (m.unsafe_set_reverse f i r).n_faces_ = m.n_faces_ :=
  (unsafe_set_reverse_frame m f i r).2.1

theorem usr_nb (m : TriangleTopology) (f : FaceId) (i : Int) (r : HalfedgeId) :
    (m.unsafe_set_reverse f i r).n_boundary_edges_ = m.n_boundary_edges_ :=
  (unsafe_set_reverse_frame m f i r).2.2.1

theorem flipRewire_vertices (m2 : TriangleTopology) (f0 f1 : FaceId)
    (v0 v1 o0 o1 : VertexId) (rn0 rp0 rn1 rp1 : HalfedgeId) (j : Int) :
    ((flipRewire m2 f0 f1 v0 v1 o0 o1 rn0 rp0 rn1 rp1).fRead j).vertices =
      (m2.fRead j).vertices := by
  unfold flipRewire
  simp only [flipFixVertex_fRead, unsafe_set_reverse_vertices]

theorem flipRewire_counts (m2 : TriangleTopology) (f0 f1 : FaceId)
    (v0 v1 o0 o1 : VertexId) (rn0 rp0 rn1 rp1 : HalfedgeId) :
    (flipRewire m2 f0 f1 v0 v1 o0 o1 rn0 rp0 rn1 rp1).n_vertices_ = m2.n_vertices_ ∧
    (flipRewire m2 f0 f1 v0 v1 o0 o1 rn0 rp0 rn1 rp1).n_faces_ = m2.n_faces_ ∧
    (flipRewire m2 f0 f1 v0 v1 o0 o1 rn0 rp0 rn1 rp1).n_boundary_edges_ =
      m2.n_boundary_edges_ := by
  unfold flipRewire
  refine ⟨?_, ?_, ?_⟩
  · simp only [flipFixVertex_nv, usr_nv]
  · simp only [flipFixVertex_nf, usr_nf]
  · simp only [flipFixVertex_nb, usr_nb]

theorem flipRelabel_counts (m : TriangleTopology) (e0 : HalfedgeId) :
    (flipRelabel m e0).n_vertices_ = m.n_vertices_ ∧
    (flipRelabel m e0).n_faces_ = m.n_faces_ ∧
    (flipRelabel m e0).n_boundary_edges_ = m.n_boundary_edges_ :=
  ⟨rfl, rfl, rfl⟩

theorem flipRelabel_vertices_at_f0 (m : TriangleTopology) (e0 : HalfedgeId)
    (h0 : 0 ≤ (m.face e0).id) (hlt : (m.face e0).id < (m.faces_.length : Int))
    (hne : (m.face e0).id ≠ (m.face (m.reverse e0)).id) :
    ((flipRelabel m e0).fRead (m.face e0).id).vertices =
      ⟨m.src (m.prev e0), m.src (m.prev (m.reverse e0)), m.src (m.reverse e0)⟩ := by
  unfold flipRelabel fRead
  simp only [iget_iset, iset_length]
  rw [if_neg (by intro h; exact hne h.2.2)]
  rw [if_pos ⟨h0, hlt, trivial⟩]

end TriangleTopology

open TriangleTopology in
/-- C3: flip_edge(e) succeeds if and only if is_flip_safe(e); when unsafe
it fails with a descriptive error and produces no successor state (the
mesh the caller holds is the unchanged pre-call state); when safe (and
the two incident faces are distinct, as in every consistent mesh) it
completes, returning the rotated diagonal running between the two
opposite vertices, with all element counts preserved. -/
theorem flip_edge_iff_flip_safe (m : TriangleTopology) (e : HalfedgeId) :
    ((∃ r, m.flip_edge e = Except.ok r) ↔ m.is_flip_safe e = true) ∧
    (m.is_flip_safe e = false →
      m.flip_edge e = Except.error "flip_edge: edge flip is not safe") ∧
    (m.is_flip_safe e = true → m.face e ≠ m.face (m.reverse e) →
      ∃ m' e', m.flip_edge e = Except.ok (m', e') ∧
        m'.src e' = m.src (m.prev e) ∧
        m'.dst e' = m.src (m.prev (m.reverse e)) ∧
        m'.n_vertices_ = m.n_vertices_ ∧ m'.n_faces_ = m.n_faces_ ∧
        m'.n_boundary_edges_ = m.n_boundary_edges_) := by
  refine ⟨⟨?_, ?_⟩, ?_, ?_⟩
  · rintro ⟨r, hr⟩
    by_cases h : m.is_flip_safe e
    · exact h
    · unfold TriangleTopology.flip_edge at hr
      rw [if_neg h] at hr
      cases hr
  · intro h
    exact ⟨m.unsafe_flip_edge e, by unfold TriangleTopology.flip_edge; rw [if_pos h]⟩
  · intro h
    unfold TriangleTopology.flip_edge
    rw [if_neg (by simp [h])]
  · intro hsafe hff
    have hparts : m.valid_e e = true ∧ m.is_boundary_e e = false ∧
        m.is_boundary_e (m.reverse e) = false := by
      simp only [TriangleTopology.is_flip_safe, Bool.and_eq_true, Bool.not_eq_true'] at hsafe
      exact ⟨hsafe.1.1.1, hsafe.1.1.2, hsafe.1.2⟩
    have he0 : 0 ≤ e.id := by
      have h2 := hparts.2.1
      simp only [TriangleTopology.is_boundary_e, decide_eq_false_iff_not, not_lt] at h2
      exact h2
    have hface0 : m.face e = ⟨e.id / 3⟩ := by
      simp only [TriangleTopology.face, if_pos he0]
    have hF0 : 0 ≤ (m.face e).id := by
      rw [hface0]
      exact Int.ediv_nonneg he0 (by norm_num)
    have hrange : (m.face e).id < (m.faces_.length : Int) := by
      have hv := hparts.1
      simp only [TriangleTopology.valid_e, if_pos he0, TriangleTopology.valid_f, inRange,
        Bool.and_eq_true, decide_eq_true_eq] at hv
      rw [hface0]
      exact hv.1.2
    have hne : (m.face e).id ≠ (m.face (m.reverse e)).id := fun hcon =>
      hff (by cases hf : m.face e with
        | mk a => cases hg : m.face (m.reverse e) with
          | mk b =>
            rw [hf, hg] at hcon
            simp only at hcon
            rw [hcon])
    refine ⟨(m.unsafe_flip_edge e).1, (m.unsafe_flip_edge e).2, ?_, ?_, ?_, ?_, ?_, ?_⟩
    · unfold TriangleTopology.flip_edge
      rw [if_pos hsafe]
    · show TriangleTopology.src _ _ = _
      unfold TriangleTopology.unsafe_flip_edge
      simp only
      unfold TriangleTopology.src
      rw [if_pos (show (0 : Int) ≤ (⟨3 * (m.face e).id + 0⟩ : HalfedgeId).id by
        simp only; omega)]
      rw [show ((⟨3 * (m.face e).id + 0⟩ : HalfedgeId).id / 3) = (m.face e).id by
        simp only; omega]
      rw [show ((⟨3 * (m.face e).id + 0⟩ : HalfedgeId).id - 3 * (m.face e).id) = 0 by
        simp only; ring]
      rw [flipRewire_vertices, flipRelabel_vertices_at_f0 m e hF0 hrange hne]
      rfl
    · show TriangleTopology.dst _ _ = _
      unfold TriangleTopology.unsafe_flip_edge
      simp only
      unfold TriangleTopology.dst
      rw [if_pos (show (0 : Int) ≤ (⟨3 * (m.face e).id + 0⟩ : HalfedgeId).id by
        simp only; omega)]
      rw [show ((⟨3 * (m.face e).id + 0⟩ : HalfedgeId).id / 3) = (m.face e).id by
        simp only; omega]
      rw [show ((⟨3 * (m.face e).id + 0⟩ : HalfedgeId).id - 3 * (m.face e).id) = 0 by
        simp only; ring]
      rw [if_neg (by norm_num)]
      rw [flipRewire_vertices, flipRelabel_vertices_at_f0 m e hF0 hrange hne]
      rfl
    · show (TriangleTopology.flipRewire _ _ _ _ _ _ _ _ _ _ _).n_vertices_ = _
      rw [(flipRewire_counts _ _ _ _ _ _ _ _ _ _ _).1]
      exact (flipRelabel_counts m e).1
    · show (TriangleTopology.flipRewire _ _ _ _ _ _ _ _ _ _ _).n_faces_ = _
      rw [(flipRewire_counts _ _ _ _ _ _ _ _ _ _ _).2.1]
      exact (flipRelabel_counts m e).2.1
    · show (TriangleTopology.flipRewire _ _ _ _ _ _ _ _ _ _ _).n_boundary_edges_ = _
      rw [(flipRewire_counts _ _ _ _ _ _ _ _ _ _ _).2.2]
      exact (flipRelabel_counts m e).2.2

/-- Concrete mesh: two triangles (0,1,2) and (2,1,3) sharing the diagonal
1-2, with the four boundary halfedges of the outer square. -/
def square : TriangleTopology where
  n_vertices_ := 4
  n_faces_ := 2
  n_boundary_edges_ := 4
  faces_ :=
    [⟨⟨⟨0⟩, ⟨1⟩, ⟨2⟩⟩, ⟨⟨-1⟩, ⟨3⟩, ⟨-2⟩⟩⟩,
     ⟨⟨⟨2⟩, ⟨1⟩, ⟨3⟩⟩, ⟨⟨1⟩, ⟨-3⟩, ⟨-4⟩⟩⟩]
  vertex_to_edge_ := [⟨-2⟩, ⟨-1⟩, ⟨-4⟩, ⟨-3⟩]
  boundaries_ :=
    [⟨⟨-3⟩, ⟨-2⟩, ⟨0⟩, ⟨1⟩⟩,
     ⟨⟨-1⟩, ⟨-4⟩, ⟨2⟩, ⟨0⟩⟩,
     ⟨⟨-4⟩, ⟨-1⟩, ⟨4⟩, ⟨3⟩⟩,
     ⟨⟨-2⟩, ⟨-3⟩, ⟨5⟩, ⟨2⟩⟩]
  erased_boundaries_ := ⟨invalid_id⟩

/-- Witness for the C3 theorem: flipping the interior diagonal of the
square is safe and succeeds, rotating the diagonal to run between the two
opposite corners. -/
theorem flip_edge_iff_flip_safe_witness :
    square.is_flip_safe ⟨1⟩ = true ∧
    ∃ m' e', square.flip_edge ⟨1⟩ = Except.ok (m', e') ∧
      m'.src e' = square.src (square.prev ⟨1⟩) ∧
      m'.dst e' = square.src (square.prev (square.reverse ⟨1⟩)) ∧
      m'.n_vertices_ = square.n_vertices_ ∧ m'.n_faces_ = square.n_faces_ ∧
      m'.n_boundary_edges_ = square.n_boundary_edges_ :=
  ⟨by decide, (flip_edge_iff_flip_safe square ⟨1⟩).2.2 (by decide) (by decide)⟩

namespace TriangleTopology

/-- TriangleTopology::unsafe_boundary_link(p,n) (source lines 101-105):
next of p and prev of n are set to each other. -/
def unsafe_boundary_link (m : TriangleTopology) (p n : HalfedgeId) : TriangleTopology :=
  let m1 := { m with
    boundaries_ := iset m.boundaries_ (-1 - p.id) { m.bRead (-1 - p.id) with next := n } }
  { m1 with
    boundaries_ := iset m1.boundaries_ (-1 - n.id) { m1.bRead (-1 - n.id) with prev := p } }

/-- Modelled from the spec: unsafe_new_boundary(src,reverse) (body not in
src/) makes a new boundary record opposite reverse at src, reusing the
head of the erased free list when one exists and appending a slot
otherwise; the live boundary count grows by one.  prev and next are
provisional self links until the caller splices the ring. -/
def unsafe_new_boundary (m : TriangleTopology) (srcV : VertexId) (rev : HalfedgeId) :
    TriangleTopology × HalfedgeId :=
  if m.erased_boundaries_.isValid then
    let b := m.erased_boundaries_
    let k := -1 - b.id
    ({ m with
        boundaries_ := iset m.boundaries_ k ⟨b, b, rev, srcV⟩
        erased_boundaries_ := (m.bRead k).next
        n_boundary_edges_ := m.n_boundary_edges_ + 1 }, b)
  else
    let b : HalfedgeId := ⟨-1 - (m.boundaries_.length : Int)⟩
    ({ m with
        boundaries_ := m.boundaries_ ++ [⟨b, b, rev, srcV⟩]
        n_boundary_edges_ := m.n_boundary_edges_ + 1 }, b)

/-- Modelled from the spec: the boundary halfedge leaving u, if any (used
to keep invariant 2, boundary vertices store a boundary outgoing). -/
def boundaryOutOf (m : TriangleTopology) (u : VertexId) : HalfedgeId :=
  match (List.range m.boundaries_.length).find? (fun k =>
      m.valid_e ⟨-1 - (k : Int)⟩ && decide ((m.bRead (k : Int)).src = u)) with
  | some k => ⟨-1 - (k : Int)⟩
  | none => ⟨invalid_id⟩

/-- Modelled from the spec: links the three fresh boundary halfedges of a
just-inserted isolated triangle f into one boundary loop. -/
def linkFreshBoundaryRing (m : TriangleTopology) (f : FaceId) : TriangleTopology :=
  let b0 := (m.fRead f.id).neighbors.x
  let b1 := (m.fRead f.id).neighbors.y
  let b2 := (m.fRead f.id).neighbors.z
  ((m.unsafe_boundary_link b0 b2).unsafe_boundary_link b2 b1).unsafe_boundary_link b1 b0

/-- Modelled from the spec: the oriented edge v0 to v1 is occupied when a
valid interior halfedge from v0 to v1 already exists; a second face
claiming it would make two faces share one oriented edge. -/
def orientedEdgeOccupied (m : TriangleTopology) (v0 v1 : VertexId) : Bool :=
  (m.halfedge_between v0 v1).isValid && !(m.is_boundary_e (m.halfedge_between v0 v1))

/-- Modelled from the spec: repoint a corner vertex after a face
insertion: a boundary vertex stores a boundary outgoing halfedge, an
attached vertex whose stored handle became invalid or stale falls back to
its interior outgoing halfedge in the new face. -/
def addFaceFixVertex (m : TriangleTopology) (u : VertexId) (fallback : HalfedgeId) :
    TriangleTopology :=
  let bo := m.boundaryOutOf u
  if bo.isValid then
    { m with vertex_to_edge_ := iset m.vertex_to_edge_ u.id bo }
  else if ¬ (m.vRead u.id).isValid ∨ m.erased_e (m.vRead u.id) then
    { m with vertex_to_edge_ := iset m.vertex_to_edge_ u.id fallback }
  else m

/-- Modelled from the spec: wire one edge of a new face nf: pair with an
existing interior partner (erasing the stale boundary that was its
reverse) or create a fresh boundary partner. -/
def addFaceStep (mm : TriangleTopology) (nf : Int) (i : Int) (r : HalfedgeId)
    (srcB : VertexId) : TriangleTopology :=
  if r.isValid && !(mm.is_boundary_e r) then
    let b := mm.reverse r
    let mm1 := mm.unsafe_set_reverse ⟨nf⟩ i r
    if b.id < 0 then mm1.unsafe_set_erased_b b else mm1
  else
    let p := mm.unsafe_new_boundary srcB ⟨3 * nf + i⟩
    p.1.unsafe_set_reverse ⟨nf⟩ i p.2

/-- Modelled from the spec: commit phase of add_face, run only after all
checks passed: append the face record, wire its three edges into the
existing boundary structure exactly as in bulk construction, link a fresh
boundary loop when the triangle is isolated, and refresh the three corner
vertices' stored outgoing halfedges. -/
def addFaceCommit (m : TriangleTopology) (v : Vec3 VertexId) :
    TriangleTopology × FaceId :=
  let nf : Int := m.faces_.length
  let r0 := m.halfedge_between v.y v.x
  let r1 := m.halfedge_between v.z v.y
  let r2 := m.halfedge_between v.x v.z
  let mA := { m with
    faces_ := m.faces_ ++ [⟨v, ⟨⟨invalid_id⟩, ⟨invalid_id⟩, ⟨invalid_id⟩⟩⟩]
    n_faces_ := m.n_faces_ + 1 }
  let mB := addFaceStep mA nf 0 r0 v.y
  let mC := addFaceStep mB nf 1 r1 v.z
  let mD := addFaceStep mC nf 2 r2 v.x
  let mE := if !r0.isValid && !r1.isValid && !r2.isValid then
      linkFreshBoundaryRing mD ⟨nf⟩
    else mD
  let mF := addFaceFixVertex mE v.x ⟨3 * nf + 0⟩
  let mG := addFaceFixVertex mF v.y ⟨3 * nf + 1⟩
  (addFaceFixVertex mG v.z ⟨3 * nf + 2⟩, ⟨nf⟩)

/-- Modelled from the spec: add_face(v) (body not in src/) eagerly checks
handle validity and structural manifoldness (duplicate oriented edge,
non-manifold vertex fan) and fails with a structural-violation error
leaving the mesh untouched; only when every check passes does the commit
phase run. -/
def add_face (m : TriangleTopology) (v : Vec3 VertexId) :
    Except String (TriangleTopology × FaceId) :=
  if ¬ (m.valid_v v.x && m.valid_v v.y && m.valid_v v.z) = true then
    Except.error "add_face: invalid vertex id"
  else if v.x = v.y ∨ v.y = v.z ∨ v.z = v.x then
    Except.error "add_face: degenerate face"
  else if m.orientedEdgeOccupied v.x v.y = true ∨ m.orientedEdgeOccupied v.y v.z = true ∨
      m.orientedEdgeOccupied v.z v.x = true then
    Except.error "add_face: oriented edge already claimed by a face, mesh would be non-manifold"
  else if ¬ ((m.isolated v.x || m.is_boundary_v v.x) &&
      (m.isolated v.y || m.is_boundary_v v.y) &&
      (m.isolated v.z || m.is_boundary_v v.z)) = true then
    Except.error "add_face: non-manifold vertex fan"
  else
    Except.ok (m.addFaceCommit v)

end TriangleTopology

/-- C4: add_face is atomic on failure: whenever inserting (v0,v1,v2)
would make two faces share an oriented edge, the call fails with a
structural-violation error and yields no successor state at all, so the
pre-call mesh (counts and structure) is what the caller still holds. -/
theorem add_face_atomic (m : TriangleTopology) (v : Vec3 VertexId)
    (hdup : m.orientedEdgeOccupied v.x v.y = true ∨ m.orientedEdgeOccupied v.y v.z = true ∨
      m.orientedEdgeOccupied v.z v.x = true) :
    (∃ msg, m.add_face v = Except.error msg) ∧
    (∀ m' f, m.add_face v ≠ Except.ok (m', f)) := by
  have herr : ∃ msg, m.add_face v = Except.error msg := by
    unfold TriangleTopology.add_face
    by_cases h1 : ¬ (m.valid_v v.x && m.valid_v v.y && m.valid_v v.z) = true
    · rw [if_pos h1]
      exact ⟨_, rfl⟩
    · rw [if_neg h1]
      by_cases h2 : v.x = v.y ∨ v.y = v.z ∨ v.z = v.x
      · rw [if_pos h2]
        exact ⟨_, rfl⟩
      · rw [if_neg h2, if_pos hdup]
        exact ⟨_, rfl⟩
  obtain ⟨msg, hmsg⟩ := herr
  refine ⟨⟨msg, hmsg⟩, ?_⟩
  intro m' f
  rw [hmsg]
  simp

/-- Mesh of three isolated vertices. -/
def threeVerts : TriangleTopology :=
  ⟨3, 0, 0, [], [⟨invalid_id⟩, ⟨invalid_id⟩, ⟨invalid_id⟩], [], ⟨invalid_id⟩⟩

/-- Witness for the C4 theorem: inserting the triangle (0,1,2) once
succeeds; inserting it a second time hits the duplicate-oriented-edge
check and fails, leaving the vertex and face counts at 3 and 1. -/
theorem add_face_atomic_witness :
    threeVerts.add_face ⟨⟨0⟩, ⟨1⟩, ⟨2⟩⟩ =
      Except.ok (threeVerts.addFaceCommit ⟨⟨0⟩, ⟨1⟩, ⟨2⟩⟩) ∧
    (threeVerts.addFaceCommit ⟨⟨0⟩, ⟨1⟩, ⟨2⟩⟩).1.n_vertices_ = 3 ∧
    (threeVerts.addFaceCommit ⟨⟨0⟩, ⟨1⟩, ⟨2⟩⟩).1.n_faces_ = 1 ∧
    (∃ msg, (threeVerts.addFaceCommit ⟨⟨0⟩, ⟨1⟩, ⟨2⟩⟩).1.add_face ⟨⟨0⟩, ⟨1⟩, ⟨2⟩⟩ =
      Except.error msg) :=
  ⟨rfl, rfl, rfl,
    (add_face_atomic (threeVerts.addFaceCommit ⟨⟨0⟩, ⟨1⟩, ⟨2⟩⟩).1 ⟨⟨0⟩, ⟨1⟩, ⟨2⟩⟩
      (by decide)).1⟩

namespace TriangleTopology

/-- Junk vector used when appending placeholder neighbors. -/
def noNeighbors : Vec3 HalfedgeId := ⟨⟨invalid_id⟩, ⟨invalid_id⟩, ⟨invalid_id⟩⟩

/-- Modelled from the spec: split_face(f) with a concrete centre vertex c
(the body of split_face(FaceId,VertexId) is not in src/): face f with
vertices (v0,v1,v2) is subdivided into f=(v0,v1,c) plus the two new
faces (v1,v2,c) and (v2,v0,c) appended at the end; the outer edges keep
their reverses, the six spoke halfedges are paired up, c's outgoing
halfedge lies in f, and a corner whose stored outgoing halfedge was
relabelled is repointed. -/
def split_face_c (m : TriangleTopology) (f : FaceId) (c : VertexId) : TriangleTopology :=
  let vs := (m.fRead f.id).vertices
  let r1 := m.reverse ⟨3 * f.id + 1⟩
  let r2 := m.reverse ⟨3 * f.id + 2⟩
  let nf1 : Int := m.faces_.length
  let nf2 : Int := nf1 + 1
  let mA := { m with
    faces_ := (iset m.faces_ f.id { m.fRead f.id with vertices := ⟨vs.x, vs.y, c⟩ }) ++
      ([⟨⟨vs.y, vs.z, c⟩, noNeighbors⟩, ⟨⟨vs.z, vs.x, c⟩, noNeighbors⟩] : List FaceInfo)
    n_faces_ := m.n_faces_ + 2 }
  let mB := mA.unsafe_set_reverse ⟨nf1⟩ 0 r1
  let mC := mB.unsafe_set_reverse ⟨nf2⟩ 0 r2
  let mD := mC.unsafe_set_reverse f 1 ⟨3 * nf1 + 2⟩
  let mE := mD.unsafe_set_reverse f 2 ⟨3 * nf2 + 1⟩
  let mF := mE.unsafe_set_reverse ⟨nf1⟩ 1 ⟨3 * nf2 + 2⟩
  let mG := { mF with vertex_to_edge_ := iset mF.vertex_to_edge_ c.id ⟨3 * f.id + 2⟩ }
  if mG.vRead vs.z.id = (⟨3 * f.id + 2⟩ : HalfedgeId) then
    { mG with vertex_to_edge_ := iset mG.vertex_to_edge_ vs.z.id ⟨3 * nf2 + 0⟩ }
  else mG

/-- Modelled from the spec: split_face(f) (body not in src/) allocates a
new vertex and splits f into three around it; two new faces are created
and the new vertex id is returned. -/
def split_face (m : TriangleTopology) (f : FaceId) :
    Except String (TriangleTopology × VertexId) :=
  if m.valid_f f then
    let c : VertexId := ⟨(m.vertex_to_edge_.length : Int)⟩
    let m1 := { m with
      vertex_to_edge_ := m.vertex_to_edge_ ++ [⟨invalid_id⟩]
      n_vertices_ := m.n_vertices_ + 1 }
    Except.ok (split_face_c m1 f c, c)
  else Except.error "split_face: invalid face"

/-- Modelled from the spec: unsafe_split_halfedge(h,c) (body not in
src/): split the interior halfedge h = (f,i0) running u -> w at a new
vertex c.  Face f keeps its id with w replaced by c (so dst(h) = c), the
new face (c,w,u2) is appended taking over the outer reverse of the next
edge of f, and the two inner spokes are paired; returns the state and
the continuation halfedge of the new face with src c, still to be
connected externally. -/
def unsafe_split_halfedge (m : TriangleTopology) (h : HalfedgeId) (c : VertexId) :
    TriangleTopology × HalfedgeId :=
  let f : Int := h.id / 3
  let i0 : Int := h.id - 3 * f
  let i1 : Int := if i0 = 2 then 0 else i0 + 1
  let i2 : Int := if i1 = 2 then 0 else i1 + 1
  let vs := (m.fRead f).vertices
  let w := vs.get i1
  let u2 := vs.get i2
  let r1 := m.reverse ⟨3 * f + i1⟩
  let nf : Int := m.faces_.length
  let mA := { m with
    faces_ := (iset m.faces_ f { m.fRead f with vertices := vs.set i1 c }) ++
      ([⟨⟨c, w, u2⟩, noNeighbors⟩] : List FaceInfo)
    n_faces_ := m.n_faces_ + 1 }
  let mB := mA.unsafe_set_reverse ⟨nf⟩ 1 r1
  let mC := mB.unsafe_set_reverse ⟨nf⟩ 2 ⟨3 * f + i1⟩
  let mD := if mC.vRead w.id = (⟨3 * f + i1⟩ : HalfedgeId) then
      { mC with vertex_to_edge_ := iset mC.vertex_to_edge_ w.id ⟨3 * nf + 1⟩ }
    else mC
  (mD, ⟨3 * nf + 0⟩)

/-- Modelled from the spec: split_edge(e) with a concrete centre vertex
(bodies not in src/): split the interior side(s) of edge e at c.  With
two interior sides both adjacent faces are split and the four halves are
re-paired; with a boundary side the single interior face is split, the
boundary halfedge is split in two by reusing the old slot and creating
one fresh boundary record, spliced into the boundary ring. -/
def split_edge_c (m : TriangleTopology) (e : HalfedgeId) (c : VertexId) : TriangleTopology :=
  if 0 ≤ e.id ∧ 0 ≤ (m.reverse e).id then
    let eR := m.reverse e
    let p1 := m.unsafe_split_halfedge e c
    let p2 := p1.1.unsafe_split_halfedge eR c
    let m3 := p2.1.unsafe_set_reverse ⟨p1.2.id / 3⟩ 0 eR
    let m4 := m3.unsafe_set_reverse ⟨p2.2.id / 3⟩ 0 e
    { m4 with vertex_to_edge_ := iset m4.vertex_to_edge_ c.id p1.2 }
  else
    let eI := if 0 ≤ e.id then e else m.reverse e
    let eB := if 0 ≤ e.id then m.reverse e else e
    let u := m.src eI
    let p1 := m.unsafe_split_halfedge eI c
    let p2 := p1.1.unsafe_new_boundary c eI
    let m3 := p2.1.unsafe_set_reverse ⟨p1.2.id / 3⟩ 0 eB
    let oldNext := m.next eB
    let m4 := (m3.unsafe_boundary_link eB p2.2).unsafe_boundary_link p2.2 oldNext
    { m4 with vertex_to_edge_ := iset m4.vertex_to_edge_ c.id p2.2 }

/-- Modelled from the spec: split_edge(e) (body not in src/) allocates a
new vertex in the middle of edge e, splitting both adjacent faces, or
the one adjacent face when e lies on the boundary. -/
def split_edge (m : TriangleTopology) (e : HalfedgeId) :
    Except String (TriangleTopology × VertexId) :=
  if m.valid_e e then
    let c : VertexId := ⟨(m.vertex_to_edge_.length : Int)⟩
    let m1 := { m with
      vertex_to_edge_ := m.vertex_to_edge_ ++ [⟨invalid_id⟩]
      n_vertices_ := m.n_vertices_ + 1 }
    Except.ok (split_edge_c m1 e c, c)
  else Except.error "split_edge: invalid halfedge"

end TriangleTopology

namespace TriangleTopology

theorem unsafe_boundary_link_counts (m : TriangleTopology) (p n : HalfedgeId) :
    (m.unsafe_boundary_link p n).n_vertices_ = m.n_vertices_ ∧
    (m.unsafe_boundary_link p n).n_faces_ = m.n_faces_ ∧
    (m.unsafe_boundary_link p n).n_boundary_edges_ = m.n_boundary_edges_ :=
  ⟨rfl, rfl, rfl⟩

theorem unsafe_new_boundary_counts (m : TriangleTopology) (s : VertexId) (r : HalfedgeId) :
    (m.unsafe_new_boundary s r).1.n_vertices_ = m.n_vertices_ ∧
    (m.unsafe_new_boundary s r).1.n_faces_ = m.n_faces_ ∧
    (m.unsafe_new_boundary s r).1.n_boundary_edges_ = m.n_boundary_edges_ + 1 := by
  unfold unsafe_new_boundary
  split
  · exact ⟨rfl, rfl, rfl⟩
  · exact ⟨rfl, rfl, rfl⟩

theorem unsafe_split_halfedge_counts (m : TriangleTopology) (h : HalfedgeId) (c : VertexId) :
    (m.unsafe_split_halfedge h c).1.n_vertices_ = m.n_vertices_ ∧
    (m.unsafe_split_halfedge h c).1.n_faces_ = m.n_faces_ + 1 ∧
    (m.unsafe_split_halfedge h c).1.n_boundary_edges_ = m.n_boundary_edges_ := by
  unfold unsafe_split_halfedge
  refine ⟨?_, ?_, ?_⟩ <;>
    · simp only
      repeat' split
      all_goals simp only [usr_nv, usr_nf, usr_nb]

theorem split_face_c_counts (m : TriangleTopology) (f : FaceId) (c : VertexId) :
    (m.split_face_c f c).n_vertices_ = m.n_vertices_ ∧
    (m.split_face_c f c).n_faces_ = m.n_faces_ + 2 ∧
    (m.split_face_c f c).n_boundary_edges_ = m.n_boundary_edges_ := by
  unfold split_face_c
  refine ⟨?_, ?_, ?_⟩ <;>
    · simp only
      split
      · simp only [usr_nv, usr_nf, usr_nb]
      · simp only [usr_nv, usr_nf, usr_nb]

theorem ubl_nv (m : TriangleTopology) (p n : HalfedgeId) :
    (m.unsafe_boundary_link p n).n_vertices_ = m.n_vertices_ := rfl

theorem ubl_nf (m : TriangleTopology) (p n : HalfedgeId) :
    (m.unsafe_boundary_link p n).n_faces_ = m.n_faces_ := rfl

theorem ubl_nb (m : TriangleTopology) (p n : HalfedgeId) :
    (m.unsafe_boundary_link p n).n_boundary_edges_ = m.n_boundary_edges_ := rfl

theorem unb_nv (m : TriangleTopology) (s : VertexId) (r : HalfedgeId) :
    (m.unsafe_new_boundary s r).1.n_vertices_ = m.n_vertices_ :=
  (unsafe_new_boundary_counts m s r).1

theorem unb_nf (m : TriangleTopology) (s : VertexId) (r : HalfedgeId) :
    (m.unsafe_new_boundary s r).1.n_faces_ = m.n_faces_ :=
  (unsafe_new_boundary_counts m s r).2.1

theorem unb_nb (m : TriangleTopology) (s : VertexId) (r : HalfedgeId) :
    (m.unsafe_new_boundary s r).1.n_boundary_edges_ = m.n_boundary_edges_ + 1 :=
  (unsafe_new_boundary_counts m s r).2.2

theorem ush_nv (m : TriangleTopology) (h : HalfedgeId) (c : VertexId) :
    (m.unsafe_split_halfedge h c).1.n_vertices_ = m.n_vertices_ :=
  (unsafe_split_halfedge_counts m h c).1

theorem ush_nf (m : TriangleTopology) (h : HalfedgeId) (c : VertexId) :
    (m.unsafe_split_halfedge h c).1.n_faces_ = m.n_faces_ + 1 :=
  (unsafe_split_halfedge_counts m h c).2.1

theorem ush_nb (m : TriangleTopology) (h : HalfedgeId) (c : VertexId) :
    (m.unsafe_split_halfedge h c).1.n_boundary_edges_ = m.n_boundary_edges_ :=
  (unsafe_split_halfedge_counts m h c).2.2

theorem split_edge_c_counts (m : TriangleTopology) (e : HalfedgeId) (c : VertexId) :
    (m.split_edge_c e c).n_vertices_ = m.n_vertices_ ∧
    (((m.split_edge_c e c).n_faces_ = m.n_faces_ + 2 ∧
      (m.split_edge_c e c).n_boundary_edges_ = m.n_boundary_edges_) ∨
     ((m.split_edge_c e c).n_faces_ = m.n_faces_ + 1 ∧
      (m.split_edge_c e c).n_boundary_edges_ = m.n_boundary_edges_ + 1)) := by
  unfold split_edge_c
  split
  · refine ⟨?_, Or.inl ⟨?_, ?_⟩⟩
    · simp only [usr_nv, ush_nv]
    · simp only [usr_nf, ush_nf]
      omega
    · simp only [usr_nb, ush_nb]
  · refine ⟨?_, Or.inr ⟨?_, ?_⟩⟩
    · simp only [ubl_nv, usr_nv, unb_nv, ush_nv]
    · simp only [ubl_nf, usr_nf, unb_nf, ush_nf]
    · simp only [ubl_nb, usr_nb, unb_nb, ush_nb]

theorem flip_edge_counts (m : TriangleTopology) (e : HalfedgeId)
    (m1 : TriangleTopology) (e1 : HalfedgeId) (h : m.flip_edge e = Except.ok (m1, e1)) :
    m1.n_vertices_ = m.n_vertices_ ∧ m1.n_faces_ = m.n_faces_ ∧
    m1.n_boundary_edges_ = m.n_boundary_edges_ := by
  unfold flip_edge at h
  split at h
  · injection h with h1
    injection h1 with hm he
    subst hm
    refine ⟨?_, ?_, ?_⟩
    · show (TriangleTopology.flipRewire _ _ _ _ _ _ _ _ _ _ _).n_vertices_ = _
      rw [(flipRewire_counts _ _ _ _ _ _ _ _ _ _ _).1]
      exact (flipRelabel_counts m e).1
    · show (TriangleTopology.flipRewire _ _ _ _ _ _ _ _ _ _ _).n_faces_ = _
      rw [(flipRewire_counts _ _ _ _ _ _ _ _ _ _ _).2.1]
      exact (flipRelabel_counts m e).2.1
    · show (TriangleTopology.flipRewire _ _ _ _ _ _ _ _ _ _ _).n_boundary_edges_ = _
      rw [(flipRewire_counts _ _ _ _ _ _ _ _ _ _ _).2.2]
      exact (flipRelabel_counts m e).2.2
  · cases h

theorem split_face_counts (m : TriangleTopology) (f : FaceId)
    (m1 : TriangleTopology) (c : VertexId) (h : m.split_face f = Except.ok (m1, c)) :
    m1.n_vertices_ = m.n_vertices_ + 1 ∧ m1.n_faces_ = m.n_faces_ + 2 ∧
    m1.n_boundary_edges_ = m.n_boundary_edges_ := by
  unfold split_face at h
  split at h
  · injection h with h1
    injection h1 with hm hc
    subst hm
    refine ⟨?_, ?_, ?_⟩
    · rw [(split_face_c_counts _ _ _).1]
    · rw [(split_face_c_counts _ _ _).2.1]
    · rw [(split_face_c_counts _ _ _).2.2]
  · cases h

theorem split_edge_counts (m : TriangleTopology) (e : HalfedgeId)
    (m1 : TriangleTopology) (c : VertexId) (h : m.split_edge e = Except.ok (m1, c)) :
    m1.n_vertices_ = m.n_vertices_ + 1 ∧
    ((m1.n_faces_ = m.n_faces_ + 2 ∧ m1.n_boundary_edges_ = m.n_boundary_edges_) ∨
     (m1.n_faces_ = m.n_faces_ + 1 ∧ m1.n_boundary_edges_ = m.n_boundary_edges_ + 1)) := by
  unfold split_edge at h
  split at h
  · injection h with h1
    injection h1 with hm hc
    subst hm
    constructor
    · rw [(split_edge_c_counts _ _ _).1]
    · rcases (split_edge_c_counts _ e _).2 with ⟨h1, h2⟩ | ⟨h1, h2⟩
      · exact Or.inl ⟨by rw [h1], by rw [h2]⟩
      · exact Or.inr ⟨by rw [h1], by rw [h2]⟩
  · cases h

end TriangleTopology

/-- A structural edit from the set that must preserve the Euler
characteristic: an edge flip, a face split, or an edge split. -/
inductive MeshOp where
  | flip (e : HalfedgeId)
  | splitF (f : FaceId)
  | splitE (e : HalfedgeId)
deriving DecidableEq, Repr

/-- Apply one edit, returning none when the operation reports failure. -/
def applyOp (m : TriangleTopology) : MeshOp → Option TriangleTopology
  | MeshOp.flip e =>
      match m.flip_edge e with
      | Except.ok p => some p.1
      | Except.error _ => none
  | MeshOp.splitF f =>
      match m.split_face f with
      | Except.ok p => some p.1
      | Except.error _ => none
  | MeshOp.splitE e =>
      match m.split_edge e with
      | Except.ok p => some p.1
      | Except.error _ => none

/-- Apply a sequence of edits, failing as soon as one fails. -/
def applyOps (m : TriangleTopology) : List MeshOp → Option TriangleTopology
  | [] => some m
  | op :: rest =>
      match applyOp m op with
      | some m1 => applyOps m1 rest
      | none => none

theorem applyOp_chi (m m1 : TriangleTopology) (op : MeshOp)
    (h : applyOp m op = some m1) : m1.chi = m.chi := by
  cases op with
  | flip e =>
      simp only [applyOp] at h
      split at h
      · rename_i p hp
        injection h with h1
        subst h1
        obtain ⟨h1, h2, h3⟩ := TriangleTopology.flip_edge_counts m e p.1 p.2 (by rw [hp])
        unfold TriangleTopology.chi TriangleTopology.n_vertices TriangleTopology.n_edges
          TriangleTopology.n_faces
        omega
      · cases h
  | splitF f =>
      simp only [applyOp] at h
      split at h
      · rename_i p hp
        injection h with h1
        subst h1
        obtain ⟨h1, h2, h3⟩ := TriangleTopology.split_face_counts m f p.1 p.2 (by rw [hp])
        unfold TriangleTopology.chi TriangleTopology.n_vertices TriangleTopology.n_edges
          TriangleTopology.n_faces
        omega
      · cases h
  | splitE e =>
      simp only [applyOp] at h
      split at h
      · rename_i p hp
        injection h with h1
        subst h1
        obtain ⟨h1, h2⟩ := TriangleTopology.split_edge_counts m e p.1 p.2 (by rw [hp])
        unfold TriangleTopology.chi TriangleTopology.n_vertices TriangleTopology.n_edges
          TriangleTopology.n_faces
        rcases h2 with ⟨h2, h3⟩ | ⟨h2, h3⟩ <;> omega
      · cases h

/-- C5: for a manifold closed mesh, the Euler characteristic
chi = V - E + F with E = (3F+B)/2 is unchanged by every successful
sequence of flip_edge, split_face and split_edge operations. -/
theorem chi_flip_split_invariant (m : TriangleTopology) (ops : List MeshOp)
    (m1 : TriangleTopology) (hclosed : m.n_boundary_edges_ = 0)
    (h : applyOps m ops = some m1) : m1.chi = m.chi := by
  clear hclosed
  induction ops generalizing m with
  | nil =>
      simp only [applyOps] at h
      injection h with h1
      rw [h1]
  | cons op rest ih =>
      simp only [applyOps] at h
      split at h
      · rename_i mm hmm
        rw [ih mm h]
        exact applyOp_chi m mm op hmm
      · cases h

/-- Witness for the C5 theorem: splitting face 0 of the closed
tetrahedron keeps chi = 2. -/
theorem chi_flip_split_invariant_witness :
    ∃ m1, applyOps tetra [MeshOp.splitF ⟨0⟩] = some m1 ∧ m1.chi = tetra.chi ∧ tetra.chi = 2 :=
  match hm : applyOps tetra [MeshOp.splitF ⟨0⟩] with
  | some m1 => ⟨m1, rfl, chi_flip_split_invariant tetra [MeshOp.splitF ⟨0⟩] m1 rfl hm, by decide⟩
  | none => by
      exact absurd hm (by decide)

/-- Map over the three components. -/
def Vec3.map {α β : Type} (f : α → β) (v : Vec3 α) : Vec3 β := ⟨f v.x, f v.y, f v.z⟩

/-- Old-to-new index table of a compaction: erased slots map to -1, live
slots are numbered consecutively starting at next. -/
def buildTableAux : List Bool → Int → List Int
  | [], _ => []
  | b :: rest, next =>
      if b then (-1) :: buildTableAux rest next
      else next :: buildTableAux rest (next + 1)

theorem buildTableAux_length (flags : List Bool) (next : Int) :
    (buildTableAux flags next).length = flags.length := by
  induction flags generalizing next with
  | nil => rfl
  | cons b rest ih =>
      unfold buildTableAux
      split <;> simp [ih]

theorem buildTableAux_bounds (flags : List Bool) (next : Int) (hnext : 0 ≤ next) :
    ∀ x ∈ buildTableAux flags next, -1 ≤ x ∧ x < next + flags.length := by
  induction flags generalizing next with
  | nil => intro x hx; cases hx
  | cons b rest ih =>
      intro x hx
      unfold buildTableAux at hx
      split at hx
      · rcases List.mem_cons.mp hx with h | h
        · subst h
          simp only [List.length_cons]
          omega
        · have := ih next hnext x h
          simp only [List.length_cons]
          omega
      · rcases List.mem_cons.mp hx with h | h
        · subst h
          simp only [List.length_cons]
          omega
        · have := ih (next + 1) (by omega) x h
          simp only [List.length_cons]
          omega

theorem buildTableAux_allFalse (flags : List Bool) (next : Int)
    (h : ∀ b ∈ flags, b = false) :
    buildTableAux flags next =
      (List.range flags.length).map (fun (k : Nat) => next + (k : Int)) := by
  induction flags generalizing next with
  | nil => rfl
  | cons b rest ih =>
      have hb : b = false := h b (List.mem_cons_self b rest)
      unfold buildTableAux
      rw [hb]
      simp only [Bool.false_eq_true, if_false]
      rw [ih (next + 1) (fun x hx => h x (List.mem_cons_of_mem b hx))]
      rw [List.length_cons, List.range_succ_eq_map, List.map_cons, List.map_map]
      refine congrArg₂ List.cons (by simp) ?_
      refine List.map_congr_left fun a ha => ?_
      show next + 1 + (a : Int) = next + ((Nat.succ a : Nat) : Int)
      push_cast
      ring

/-- Identity old-to-new table on n live slots. -/
def idTable (n : Nat) : List Int := (List.range n).map (fun (k : Nat) => (k : Int))

theorem idTable_length (n : Nat) : (idTable n).length = n := by
  simp [idTable]

theorem buildTableAux_allFalse_zero (flags : List Bool) (h : ∀ b ∈ flags, b = false) :
    buildTableAux flags 0 = idTable flags.length := by
  rw [buildTableAux_allFalse flags 0 h]
  unfold idTable
  exact List.map_congr_left fun a ha => by simp

theorem iget_idTable (n : Nat) (i : Int) (d : Int) (h0 : 0 ≤ i) (hn : i < (n : Int)) :
    iget (idTable n) i d = i := by
  unfold iget idTable
  rw [if_pos h0]
  rw [List.getD_eq_getElem _ _ (by simp only [List.length_map, List.length_range]; omega)]
  simp only [List.getElem_map, List.getElem_range]
  omega

theorem iget_mem {α : Type} (l : List α) (i : Int) (d : α) (h0 : 0 ≤ i)
    (hlt : i < (l.length : Int)) : iget l i d ∈ l := by
  unfold iget
  rw [if_pos h0, List.getD_eq_getElem _ _ (by omega)]
  exact List.getElem_mem _

theorem map_self {α : Type} (l : List α) (f : α → α) (h : ∀ a ∈ l, f a = a) :
    l.map f = l := by
  induction l with
  | nil => rfl
  | cons a t ih =>
      rw [List.map_cons, h a (List.mem_cons_self a t),
        ih (fun x hx => h x (List.mem_cons_of_mem a hx))]

theorem vec3_map_self {α : Type} (v : Vec3 α) (f : α → α) (h : ∀ a, f a = a) :
    v.map f = v := by
  unfold Vec3.map
  rw [h v.x, h v.y, h v.z]

namespace TriangleTopology

/-- Modelled from the spec: compaction remapping of a vertex handle by an
old-to-new table; handles outside the table (sentinels) pass through. -/
def remapV (tbl : List Int) (v : VertexId) : VertexId :=
  if 0 ≤ v.id ∧ v.id < (tbl.length : Int) then ⟨iget tbl v.id (-1)⟩ else v

/-- Modelled from the spec: compaction remapping of a halfedge handle:
interior 3f+i becomes 3*ftbl[f]+i, boundary -1-b becomes -1-btbl[b];
handles outside the tables (sentinels) pass through. -/
def remapH (ftbl btbl : List Int) (h : HalfedgeId) : HalfedgeId :=
  if 0 ≤ h.id then
    if h.id / 3 < (ftbl.length : Int) then ⟨3 * iget ftbl (h.id / 3) (-1) + h.id % 3⟩
    else h
  else
    if -1 - h.id < (btbl.length : Int) then ⟨-1 - iget btbl (-1 - h.id) (-1)⟩
    else h

theorem remapV_id (n : Nat) (v : VertexId) : remapV (idTable n) v = v := by
  unfold remapV
  split
  · rename_i h
    rw [iget_idTable n v.id (-1) h.1 (by rw [← idTable_length n]; exact_mod_cast h.2)]
  · rfl

theorem remapH_id (nf nb : Nat) (h : HalfedgeId) :
    remapH (idTable nf) (idTable nb) h = h := by
  unfold remapH
  split
  · rename_i h0
    split
    · rename_i hlt
      rw [iget_idTable nf _ (-1) (Int.ediv_nonneg h0 (by norm_num))
        (by rw [← idTable_length nf]; exact_mod_cast hlt)]
      have he : 3 * (h.id / 3) + h.id % 3 = h.id := by omega
      rw [he]
    · rfl
  · rename_i h0
    split
    · rename_i hlt
      rw [iget_idTable nb _ (-1) (by omega) (by rw [← idTable_length nb]; exact_mod_cast hlt)]
      have he : -1 - (-1 - h.id) = h.id := by ring
      rw [he]
    · rfl

/-- Modelled from the spec: collect_garbage() (body not in src/) compacts
the vertex, face, and boundary arrays, dropping tombstoned slots,
remapping every stored handle through the three old-to-new tables,
clearing the erased-boundary free list, and returning the tables; live
counts are unchanged (they never counted tombstones). -/
def collect_garbage (m : TriangleTopology) :
    TriangleTopology × (List Int × List Int × List Int) :=
  let vt := buildTableAux (m.vertex_to_edge_.map fun h => decide (h.id = erased_id)) 0
  let ft := buildTableAux (m.faces_.map fun fi => decide (fi.vertices.x.id = erased_id)) 0
  let bt := buildTableAux (m.boundaries_.map fun bi => decide (bi.src.id = erased_id)) 0
  let newVE := (m.vertex_to_edge_.filter fun h => !decide (h.id = erased_id)).map
    (remapH ft bt)
  let newF := (m.faces_.filter fun fi => !decide (fi.vertices.x.id = erased_id)).map
    (fun fi => ⟨fi.vertices.map (remapV vt), fi.neighbors.map (remapH ft bt)⟩)
  let newB := (m.boundaries_.filter fun bi => !decide (bi.src.id = erased_id)).map
    (fun bi => ⟨remapH ft bt bi.prev, remapH ft bt bi.next, remapH ft bt bi.reverse,
      remapV vt bi.src⟩)
  (⟨m.n_vertices_, m.n_faces_, m.n_boundary_edges_, newF, newVE, newB, ⟨invalid_id⟩⟩,
   (vt, ft, bt))

theorem collect_garbage_identity (m : TriangleTopology)
    (hv : ∀ h ∈ m.vertex_to_edge_, h.id ≠ erased_id)
    (hf : ∀ fi ∈ m.faces_, fi.vertices.x.id ≠ erased_id)
    (hb : ∀ bi ∈ m.boundaries_, bi.src.id ≠ erased_id)
    (he : m.erased_boundaries_ = ⟨invalid_id⟩) :
    m.collect_garbage = (m, (idTable m.vertex_to_edge_.length, idTable m.faces_.length,
      idTable m.boundaries_.length)) := by
  unfold collect_garbage
  have hvt : buildTableAux (m.vertex_to_edge_.map fun h => decide (h.id = erased_id)) 0 =
      idTable m.vertex_to_edge_.length := by
    rw [buildTableAux_allFalse_zero _ ?hall, List.length_map]
    case hall =>
      intro b hb1
      obtain ⟨h, hh, hdec⟩ := List.mem_map.mp hb1
      rw [← hdec]
      simp [hv h hh]
  have hft : buildTableAux (m.faces_.map fun fi => decide (fi.vertices.x.id = erased_id)) 0 =
      idTable m.faces_.length := by
    rw [buildTableAux_allFalse_zero _ ?hall, List.length_map]
    case hall =>
      intro b hb1
      obtain ⟨h, hh, hdec⟩ := List.mem_map.mp hb1
      rw [← hdec]
      simp [hf h hh]
  have hbt : buildTableAux (m.boundaries_.map fun bi => decide (bi.src.id = erased_id)) 0 =
      idTable m.boundaries_.length := by
    rw [buildTableAux_allFalse_zero _ ?hall, List.length_map]
    case hall =>
      intro b hb1
      obtain ⟨h, hh, hdec⟩ := List.mem_map.mp hb1
      rw [← hdec]
      simp [hb h hh]
  have hfil_v : (m.vertex_to_edge_.filter fun h => !decide (h.id = erased_id)) =
      m.vertex_to_edge_ := by
    rw [List.filter_eq_self]
    intro a ha
    simp [hv a ha]
  have hfil_f : (m.faces_.filter fun fi => !decide (fi.vertices.x.id = erased_id)) =
      m.faces_ := by
    rw [List.filter_eq_self]
    intro a ha
    simp [hf a ha]
  have hfil_b : (m.boundaries_.filter fun bi => !decide (bi.src.id = erased_id)) =
      m.boundaries_ := by
    rw [List.filter_eq_self]
    intro a ha
    simp [hb a ha]
  simp only [hvt, hft, hbt, hfil_v, hfil_f, hfil_b]
  have hmap_v : m.vertex_to_edge_.map
      (remapH (idTable m.faces_.length) (idTable m.boundaries_.length)) =
      m.vertex_to_edge_ :=
    map_self _ _ fun a ha => remapH_id _ _ a
  have hmap_f : m.faces_.map (fun fi : FaceInfo =>
      (⟨fi.vertices.map (remapV (idTable m.vertex_to_edge_.length)),
        fi.neighbors.map (remapH (idTable m.faces_.length) (idTable m.boundaries_.length))⟩ :
        FaceInfo)) = m.faces_ :=
    map_self _ _ fun a ha => by
      rw [vec3_map_self _ _ (remapV_id _), vec3_map_self _ _ (remapH_id _ _)]
  have hmap_b : m.boundaries_.map (fun bi : BoundaryInfo =>
      (⟨remapH (idTable m.faces_.length) (idTable m.boundaries_.length) bi.prev,
        remapH (idTable m.faces_.length) (idTable m.boundaries_.length) bi.next,
        remapH (idTable m.faces_.length) (idTable m.boundaries_.length) bi.reverse,
        remapV (idTable m.vertex_to_edge_.length) bi.src⟩ : BoundaryInfo)) =
      m.boundaries_ :=
    map_self _ _ fun a ha => by
      rw [remapH_id, remapH_id, remapH_id, remapV_id]
  rw [hmap_v, hmap_f, hmap_b, ← he]

theorem remapV_ne_erased (tbl : List Int) (hb : ∀ x ∈ tbl, -1 ≤ x) (v : VertexId)
    (hv : v.id ≠ erased_id) : (remapV tbl v).id ≠ erased_id := by
  unfold remapV
  split
  · rename_i hc
    show iget tbl v.id (-1) ≠ erased_id
    have hx := hb _ (iget_mem tbl v.id (-1) hc.1 hc.2)
    have hE : erased_id = -(2 ^ 31) + 1 := rfl
    omega
  · exact hv

theorem remapH_ne_erased (ftbl btbl : List Int) (hfb : ∀ x ∈ ftbl, -1 ≤ x)
    (hbb : ∀ x ∈ btbl, -1 ≤ x ∧ x ≤ 2 ^ 31 - 3) (h : HalfedgeId)
    (hne : h.id ≠ erased_id) : (remapH ftbl btbl h).id ≠ erased_id := by
  unfold remapH
  split
  · rename_i h0
    split
    · rename_i hlt
      show 3 * iget ftbl (h.id / 3) (-1) + h.id % 3 ≠ erased_id
      have hx := hfb _ (iget_mem ftbl (h.id / 3) (-1) (Int.ediv_nonneg h0 (by norm_num)) hlt)
      have hm3 : 0 ≤ h.id % 3 := Int.emod_nonneg h.id (by norm_num)
      have hE : erased_id = -(2 ^ 31) + 1 := rfl
      omega
    · exact hne
  · rename_i h0
    split
    · rename_i hlt
      show -1 - iget btbl (-1 - h.id) (-1) ≠ erased_id
      have hx := hbb _ (iget_mem btbl (-1 - h.id) (-1) (by omega) hlt)
      have hE : erased_id = -(2 ^ 31) + 1 := rfl
      omega
    · exact hne

theorem collect_garbage_clean (m : TriangleTopology)
    (hsize : (m.boundaries_.length : Int) ≤ 2 ^ 31 - 2) :
    (∀ h ∈ (m.collect_garbage).1.vertex_to_edge_, h.id ≠ erased_id) ∧
    (∀ fi ∈ (m.collect_garbage).1.faces_, fi.vertices.x.id ≠ erased_id) ∧
    (∀ bi ∈ (m.collect_garbage).1.boundaries_, bi.src.id ≠ erased_id) ∧
    (m.collect_garbage).1.erased_boundaries_ = ⟨invalid_id⟩ := by
  have hfb : ∀ x ∈ buildTableAux (m.faces_.map fun fi =>
      decide (fi.vertices.x.id = erased_id)) 0, -1 ≤ x :=
    fun x hx => (buildTableAux_bounds _ 0 le_rfl x hx).1
  have hvb : ∀ x ∈ buildTableAux (m.vertex_to_edge_.map fun h =>
      decide (h.id = erased_id)) 0, -1 ≤ x :=
    fun x hx => (buildTableAux_bounds _ 0 le_rfl x hx).1
  have hbb : ∀ x ∈ buildTableAux (m.boundaries_.map fun bi =>
      decide (bi.src.id = erased_id)) 0, -1 ≤ x ∧ x ≤ 2 ^ 31 - 3 := by
    intro x hx
    have hb1 := buildTableAux_bounds _ 0 le_rfl x hx
    rw [List.length_map] at hb1
    exact ⟨hb1.1, by omega⟩
  refine ⟨?_, ?_, ?_, rfl⟩
  · intro x hx
    obtain ⟨h, hh, hmap⟩ := List.mem_map.mp hx
    obtain ⟨hmem, hflt⟩ := List.mem_filter.mp hh
    rw [← hmap]
    exact remapH_ne_erased _ _ hfb hbb h (by simpa using hflt)
  · intro x hx
    obtain ⟨fi, hh, hmap⟩ := List.mem_map.mp hx
    obtain ⟨hmem, hflt⟩ := List.mem_filter.mp hh
    rw [← hmap]
    exact remapV_ne_erased _ hvb fi.vertices.x (by simpa using hflt)
  · intro x hx
    obtain ⟨bi, hh, hmap⟩ := List.mem_map.mp hx
    obtain ⟨hmem, hflt⟩ := List.mem_filter.mp hh
    rw [← hmap]
    exact remapV_ne_erased _ hvb bi.src (by simpa using hflt)

end TriangleTopology

/-- C6: collect_garbage is idempotent: the second call returns the very
same compacted structure (so all counts are unchanged) together with the
identity permutations on vertices, faces, and boundary halfedges.  The
size hypothesis reflects the C++ int index space. -/
theorem collect_garbage_idempotent (m : TriangleTopology)
    (hsize : (m.boundaries_.length : Int) ≤ 2 ^ 31 - 2) :
    (m.collect_garbage).1.collect_garbage = ((m.collect_garbage).1,
      (idTable (m.collect_garbage).1.vertex_to_edge_.length,
       idTable (m.collect_garbage).1.faces_.length,
       idTable (m.collect_garbage).1.boundaries_.length)) := by
  obtain ⟨h1, h2, h3, h4⟩ := TriangleTopology.collect_garbage_clean m hsize
  exact TriangleTopology.collect_garbage_identity _ h1 h2 h3 h4

/-- Witness for the C6 theorem: the single triangle with one erased
boundary slot; the second collection leaves the compacted mesh alone. -/
theorem collect_garbage_idempotent_witness :
    ((tri1.unsafe_set_erased_b ⟨-1⟩).collect_garbage).1.collect_garbage =
      (((tri1.unsafe_set_erased_b ⟨-1⟩).collect_garbage).1,
       (idTable ((tri1.unsafe_set_erased_b ⟨-1⟩).collect_garbage).1.vertex_to_edge_.length,
        idTable ((tri1.unsafe_set_erased_b ⟨-1⟩).collect_garbage).1.faces_.length,
        idTable ((tri1.unsafe_set_erased_b ⟨-1⟩).collect_garbage).1.boundaries_.length)) :=
  collect_garbage_idempotent (tri1.unsafe_set_erased_b ⟨-1⟩) (by decide)

end Geode